import Mathlib

/-!
Verification of the shopping-cart order/fulfillment module
(`lms/djangoapps/shoppingcart/models.py`).

The Python source is shallowly embedded: Django model rows become Lean
structures, the mutating classmethods become explicit state-passing
functions, Python `Decimal` values become `ℚ` with the context rounding
(28 significant digits, round-half-even) made explicit, and raised
exceptions become `Except` results.  Strings that the verified claims
never inspect (currency codes, mode slugs, billing fields) are embedded
as opaque natural-number tokens.
-/

namespace Shoppingcart

/-- The four order statuses of `ORDER_STATUSES`. -/
inductive OStatus
  | cart
  | paying
  | purchased
  | refunded
deriving DecidableEq, Repr

/-- `OrderTypes.PERSONAL` / `OrderTypes.BUSINESS`. -/
inductive OType
  | personal
  | business
deriving DecidableEq, Repr

/-- The concrete `OrderItem` subclasses appearing in the module. -/
inductive ItemKind
  | paidCourseRegistration
  | courseRegCodeItem
  | certificateItem
  | donation
deriving DecidableEq, Repr

/-- The exceptions raised by the embedded operations
(`shoppingcart.exceptions`). -/
inductive CartException
  | invalidCartItem
  | purchasedCallback
  | itemAlreadyInCart
  | alreadyEnrolled
  | courseDoesNotExist
  | multipleCouponsNotAllowed
  | regCodeAlreadyExist
  | itemDoesNotExistAgainstRegCode
deriving DecidableEq, Repr

/-! ### Decimal / float arithmetic

`CouponRedemption.get_discount_price` computes
`Decimal("{0:.2f}".format(Decimal(percentage_discount / 100.00) * value))`.
We model: binary64 rounding of `percentage_discount / 100.00`, the exact
`Decimal` value of that float, the multiplication under the default
`decimal` context (28 significant digits, `ROUND_HALF_EVEN`), and the
2-decimal-place formatting (again `ROUND_HALF_EVEN`). -/

/-- Round a rational to the nearest integer, ties to the even integer
(Python `ROUND_HALF_EVEN`). -/
def roundHalfEvenZ (q : ℚ) : ℤ :=
  let f := ⌊q⌋
  let frac := q - (f : ℚ)
  if frac < 1/2 then f
  else if 1/2 < frac then f + 1
  else if f % 2 = 0 then f else f + 1

/-- Round a rational to the nearest integer, halves away from zero
upward (the spec's "round-half-up at the cent"). -/
def roundHalfUpZ (q : ℚ) : ℤ := ⌊q + 1/2⌋

/-- Floor of the base-`nb` logarithm of a positive rational (junk on
nonpositive input): the candidate exponent from the integer logs of
numerator and denominator, corrected downward when it overshoots. -/
def floorLogB (nb : ℕ) (q : ℚ) : ℤ :=
  if q < (nb : ℚ) ^ ((Nat.log nb q.num.natAbs : ℤ) - (Nat.log nb q.den : ℤ)) then
    (Nat.log nb q.num.natAbs : ℤ) - (Nat.log nb q.den : ℤ) - 1
  else (Nat.log nb q.num.natAbs : ℤ) - (Nat.log nb q.den : ℤ)

/-- Round a rational to `p` significant decimal digits, ties to even:
the rounding the default Python `decimal` context (precision 28,
`ROUND_HALF_EVEN`) applies to arithmetic results. -/
def roundSig (p : ℕ) (q : ℚ) : ℚ :=
  if q = 0 then 0
  else
    let s : ℤ := (p : ℤ) - 1 - floorLogB 10 |q|
    (roundHalfEvenZ (q * (10 : ℚ) ^ s) : ℚ) / (10 : ℚ) ^ s

/-- The exact rational value of the IEEE-754 binary64 double nearest to
`q` (round-to-nearest, ties-to-even on the 53-bit significand; normal
range only, which covers every `percentage / 100.0`). -/
def floatOfRat (q : ℚ) : ℚ :=
  if q = 0 then 0
  else
    let s : ℤ := 52 - floorLogB 2 |q|
    (roundHalfEvenZ (q * (2 : ℚ) ^ s) : ℚ) / (2 : ℚ) ^ s

/-- `"{0:.2f}".format(d)` for a `Decimal` `d`, read back as a rational:
round to 2 decimal places with the context rounding `ROUND_HALF_EVEN`. -/
def fmt2HalfEven (q : ℚ) : ℚ := (roundHalfEvenZ (q * 100) : ℚ) / 100

/-- `CouponRedemption.get_discount_price(percentage_discount, value)`:
`discount = Decimal("{0:.2f}".format(Decimal(percentage_discount / 100.00) * value))`,
returning `value - discount`.  `percentage_discount / 100.00` is Python
float division, the product is taken in the default 28-digit decimal
context, and the format rounds half-even at the cent. -/
def get_discount_price (percentage_discount : ℤ) (value : ℚ) : ℚ :=
  let discount := fmt2HalfEven (roundSig 28 (floatOfRat ((percentage_discount : ℚ) / 100) * value))
  value - discount

/-- Modelled from the spec: the spec's discount formula
`discounted = value − round(value × percentage/100, 2 decimal places)`
"using round-half-up at the cent", with exact rational arithmetic.
Used only to compare the spec's words against `get_discount_price`. -/
def spec_discounted_half_up (percentage : ℤ) (value : ℚ) : ℚ :=
  value - (roundHalfUpZ (value * (percentage : ℚ) / 100 * 100) : ℚ) / 100

/-! ### Data model

Rows of `OrderItem` (with the subclass discriminated by `kind`) and
`Order` (whose `orderitem_set` is carried inline as `items`).  `user`
on an item is always the order's user in every code path modelled, so
it is kept on the order only.  `course_id` is `none` when the Django
`CourseKeyField` is empty/falsy (possible for `Donation` rows). -/

structure OrderItem where
  id : ℕ
  kind : ItemKind
  course_id : Option ℕ
  status : OStatus
  qty : ℕ
  unit_cost : ℚ
  list_price : Option ℚ
  currency : ℕ
  mode : ℕ
  fulfilled_time : Option ℕ
  refund_requested_time : Option ℕ
deriving DecidableEq, Repr

structure Order where
  id : ℕ
  user : ℕ
  currency : ℕ
  status : OStatus
  order_type : OType
  purchase_time : Option ℕ
  bill_to_first : ℕ
  bill_to_last : ℕ
  bill_to_street1 : ℕ
  bill_to_street2 : ℕ
  bill_to_city : ℕ
  bill_to_state : ℕ
  bill_to_postalcode : ℕ
  bill_to_country : ℕ
  bill_to_ccnum : ℕ
  bill_to_cardtype : ℕ
  processor_reply_dump : ℕ
  items : List OrderItem
  next_item_id : ℕ
deriving DecidableEq, Repr

/-- The billing arguments of `Order.purchase`. -/
structure PurchaseArgs where
  first : ℕ
  last : ℕ
  street1 : ℕ
  street2 : ℕ
  city : ℕ
  state : ℕ
  postalcode : ℕ
  country : ℕ
  ccnum : ℕ
  cardtype : ℕ
  processor_reply_dump : ℕ
deriving DecidableEq, Repr

/-- External collaborators the module calls: the modulestore (course
catalog), `CourseEnrollment`, `CourseMode` (already resolved to the
default mode when the requested slug is missing, as the source does),
the photo-verification service, and `settings.FEATURES['STORE_BILLING_INFO']`. -/
structure Env where
  course_exists : ℕ → Bool
  is_enrolled : ℕ → ℕ → Bool
  mode_slug : ℕ → ℕ
  mode_min_price : ℕ → ℚ
  mode_currency : ℕ → ℕ
  mode_valid : ℕ → ℕ → Bool
  has_verification : ℕ → Bool
  store_billing_info : Bool

/-- Observable side effects of fulfillment (`purchased_callback`s, code
minting, verification submission, confirmation / refund e-mail). -/
inductive Event
  | enroll (user course mode : ℕ)
  | mintRegCode (user course : ℕ)
  | submitVerification (user : ℕ)
  | changeMode (user course mode : ℕ)
  | activate (user course : ℕ)
  | confirmationEmail (orderId : ℕ)
  | refundEmail (orderId : ℕ)
deriving DecidableEq, Repr

/-! ### Order and OrderItem operations -/

/-- `OrderItem.line_cost`: `qty * unit_cost`. -/
def line_cost (i : OrderItem) : ℚ := (i.qty : ℚ) * i.unit_cost

/-- `Order.total_cost`: sum of `line_cost` over
`orderitem_set.filter(status=self.status)`. -/
def total_cost (o : Order) : ℚ :=
  ((o.items.filter (fun i => decide (i.status = o.status))).map line_cost).sum

/-- The loop body of `Order.reset_cart_items_prices`: `if item.list_price:`
(Python truthiness, so `None` and zero are both falsy) copy `list_price`
into `unit_cost` and clear `list_price`. -/
def resetItemPrice (item : OrderItem) : OrderItem :=
  match item.list_price with
  | some p => if p ≠ 0 then { item with unit_cost := p, list_price := none } else item
  | none => item

/-- `Order.reset_cart_items_prices`. -/
def reset_cart_items_prices (o : Order) : Order :=
  { o with items := o.items.map resetItemPrice }

/-- The order freshly created by the `get_or_create` branch of
`Order.get_cart_for_user`: all fields at their model defaults. -/
def new_cart_for_user (oid u : ℕ) : Order :=
  { id := oid, user := u, currency := 0, status := OStatus.cart,
    order_type := OType.personal, purchase_time := none,
    bill_to_first := 0, bill_to_last := 0, bill_to_street1 := 0,
    bill_to_street2 := 0, bill_to_city := 0, bill_to_state := 0,
    bill_to_postalcode := 0, bill_to_country := 0, bill_to_ccnum := 0,
    bill_to_cardtype := 0, processor_reply_dump := 0,
    items := [], next_item_id := 0 }

/-- `OrderItem.start_purchase`: set the item status to `'paying'`. -/
def orderItemStartPurchase (i : OrderItem) : OrderItem :=
  { i with status := OStatus.paying }

/-- `Order.start_purchase`: if the status is `'cart'`, move the order
and every contained item to `'paying'`; otherwise do nothing. -/
def start_purchase (o : Order) : Order :=
  if o.status = OStatus.cart then
    { o with status := OStatus.paying,
             items := o.items.map orderItemStartPurchase }
  else o

/-- `contained_in_order` of the `PaidCourseRegistration` /
`CourseRegCodeItem` subclasses: is an item of this kind for this course
already in the order? -/
def contained_in_order (kind : ItemKind) (o : Order) (course : ℕ) : Bool :=
  o.items.any fun i => decide (i.kind = kind ∧ i.course_id = some course)

/-- `PaidCourseRegistration.add_to_order(order, course_id)` with the
default `mode_slug`/`cost`/`currency` arguments (the only form the
module itself calls, from `update_order_type`): validates course
existence, duplicate-in-cart, prior enrollment and currency, then
creates the single-seat row with `qty = 1` and the mode's price. -/
def paidCourseRegistration_add_to_order (env : Env) (o : Order) (course_id : ℕ) :
    Except CartException Order :=
  if ¬ env.course_exists course_id then Except.error CartException.courseDoesNotExist
  else if contained_in_order ItemKind.paidCourseRegistration o course_id then
    Except.error CartException.itemAlreadyInCart
  else if env.is_enrolled o.user course_id then Except.error CartException.alreadyEnrolled
  else if o.currency ≠ env.mode_currency course_id ∧ o.items ≠ [] then
    Except.error CartException.invalidCartItem
  else
    Except.ok
      { o with
        currency := env.mode_currency course_id,
        next_item_id := o.next_item_id + 1,
        items := o.items ++
          [{ id := o.next_item_id, kind := ItemKind.paidCourseRegistration,
             course_id := some course_id, status := o.status, qty := 1,
             unit_cost := env.mode_min_price course_id, list_price := none,
             currency := env.mode_currency course_id,
             mode := env.mode_slug course_id, fulfilled_time := none,
             refund_requested_time := none }] }

/-- `CourseRegCodeItem.add_to_order(order, course_id, qty)` with default
`mode_slug`/`cost`/`currency` (the form `update_order_type` calls):
same validations, then creates the bundle row carrying `qty`. -/
def courseRegCodeItem_add_to_order (env : Env) (o : Order) (course_id : ℕ) (qty : ℕ) :
    Except CartException Order :=
  if ¬ env.course_exists course_id then Except.error CartException.courseDoesNotExist
  else if contained_in_order ItemKind.courseRegCodeItem o course_id then
    Except.error CartException.itemAlreadyInCart
  else if env.is_enrolled o.user course_id then Except.error CartException.alreadyEnrolled
  else if o.currency ≠ env.mode_currency course_id ∧ o.items ≠ [] then
    Except.error CartException.invalidCartItem
  else
    Except.ok
      { o with
        currency := env.mode_currency course_id,
        next_item_id := o.next_item_id + 1,
        items := o.items ++
          [{ id := o.next_item_id, kind := ItemKind.courseRegCodeItem,
             course_id := some course_id, status := o.status, qty := qty,
             unit_cost := env.mode_min_price course_id, list_price := none,
             currency := env.mode_currency course_id,
             mode := env.mode_slug course_id, fulfilled_time := none,
             refund_requested_time := none }] }

/-- The business branch of `Order.update_order_type`: walk the snapshot
of cart items, and for each `PaidCourseRegistration` call
`CourseRegCodeItem.add_to_order(self, item.course_id, item.qty)` and
mark the original for deletion.  A raised exception propagates with the
mutations already committed and no deletions performed. -/
def migrateBusiness (env : Env) :
    List OrderItem → Order → List ℕ → Order × List ℕ × Option CartException
  | [], o, dels => (o, dels, none)
  | i :: rest, o, dels =>
    if i.kind = ItemKind.paidCourseRegistration then
      match courseRegCodeItem_add_to_order env o (i.course_id.getD 0) i.qty with
      | Except.ok o' => migrateBusiness env rest o' (dels ++ [i.id])
      | Except.error e => (o, dels, some e)
    else migrateBusiness env rest o dels

/-- The personal branch of `Order.update_order_type`: replace every
`CourseRegCodeItem` by `PaidCourseRegistration.add_to_order(self,
item.course_id)`. -/
def migratePersonal (env : Env) :
    List OrderItem → Order → List ℕ → Order × List ℕ × Option CartException
  | [], o, dels => (o, dels, none)
  | i :: rest, o, dels =>
    if i.kind = ItemKind.courseRegCodeItem then
      match paidCourseRegistration_add_to_order env o (i.course_id.getD 0) with
      | Except.ok o' => migratePersonal env rest o' (dels ++ [i.id])
      | Except.error e => (o, dels, some e)
    else migratePersonal env rest o dels

/-- The `is_order_type_business` test of `Order.update_order_type`:
some cart item has `qty > 1`. -/
def isOrderTypeBusiness (o : Order) : Bool :=
  o.items.any fun i => decide (1 < i.qty)

/-- The migration pass of `Order.update_order_type`: the business or the
personal branch, over the snapshot of the cart items. -/
def migrationResult (env : Env) (o : Order) :
    Order × List ℕ × Option CartException :=
  if isOrderTypeBusiness o then migrateBusiness env o.items o []
  else migratePersonal env o.items o []

/-- `Order.update_order_type`: the order is business iff some item has
`qty > 1`; migrate single-seat items to bundle items (or back), delete
the replaced originals, and save the resulting `order_type`.  On an
exception inside a migration the partially-migrated order is returned
with the error, originals undeleted and `order_type` unsaved. -/
def update_order_type (env : Env) (o : Order) : Order × Option CartException :=
  match migrationResult env o with
  | (o', dels, none) =>
    ({ o' with
       items := o'.items.filter (fun i => decide (i.id ∉ dels)),
       order_type := if isOrderTypeBusiness o then OType.business
                     else OType.personal }, none)
  | (o', _, some e) => (o', some e)

/-- `purchased_callback` of each `OrderItem` subclass, as the list of
side effects it performs, or the exception it raises.  The certificate
variant swallows any verification failure (`try/except` in source). -/
def purchased_callback (env : Env) (user : ℕ) (i : OrderItem) :
    Except CartException (List Event) :=
  match i.kind with
  | ItemKind.paidCourseRegistration =>
    if ¬ env.course_exists (i.course_id.getD 0) then
      Except.error CartException.purchasedCallback
    else Except.ok [Event.enroll user (i.course_id.getD 0) i.mode]
  | ItemKind.courseRegCodeItem =>
    if ¬ env.course_exists (i.course_id.getD 0) then
      Except.error CartException.purchasedCallback
    else Except.ok (List.replicate i.qty (Event.mintRegCode user (i.course_id.getD 0)))
  | ItemKind.certificateItem =>
    Except.ok
      ((if env.has_verification user then [Event.submitVerification user] else []) ++
       [Event.changeMode user (i.course_id.getD 0) i.mode,
        Event.activate user (i.course_id.getD 0)])
  | ItemKind.donation => Except.ok []

/-- `OrderItem.purchase_item`: run `purchased_callback`, then set the
item status to `'purchased'` and stamp `fulfilled_time`; its own
transaction, so a raised callback leaves the item unchanged. -/
def purchase_item (env : Env) (user t : ℕ) (i : OrderItem) :
    Except CartException (OrderItem × List Event) :=
  match purchased_callback env user i with
  | Except.error e => Except.error e
  | Except.ok evs =>
    Except.ok ({ i with status := OStatus.purchased, fulfilled_time := some t }, evs)

/-- The `for item in orderitems: item.purchase_item()` loop of
`Order.purchase`.  Each item commits independently; an exception stops
the loop, leaving earlier items purchased and later ones untouched. -/
def purchaseItemsLoop (env : Env) (user t : ℕ) :
    List OrderItem → List OrderItem × List Event × Option CartException
  | [] => ([], [], none)
  | i :: rest =>
    match purchase_item env user t i with
    | Except.error e => (i :: rest, [], some e)
    | Except.ok (i', evs) =>
      let (rest', evs', err) := purchaseItemsLoop env user t rest
      (i' :: rest', evs ++ evs', err)

/-- The field assignments and `save` at the top of `Order.purchase`:
status, purchase time and the billing snapshot (the card fields only
when `settings.FEATURES['STORE_BILLING_INFO']` is on). -/
def purchaseBillingSave (env : Env) (t : ℕ) (a : PurchaseArgs) (o : Order) : Order :=
  let o1 := { o with
    status := OStatus.purchased, purchase_time := some t,
    bill_to_first := a.first, bill_to_last := a.last,
    bill_to_city := a.city, bill_to_state := a.state,
    bill_to_country := a.country, bill_to_postalcode := a.postalcode }
  if env.store_billing_info then
    { o1 with
      bill_to_street1 := a.street1, bill_to_street2 := a.street2,
      bill_to_ccnum := a.ccnum, bill_to_cardtype := a.cardtype,
      processor_reply_dump := a.processor_reply_dump }
  else o1

/-- The `if self.order_type == OrderTypes.BUSINESS: self.update_order_type()`
step of `Order.purchase`. -/
def purchaseStep (env : Env) (o2 : Order) : Order × Option CartException :=
  if o2.order_type = OType.business then update_order_type env o2 else (o2, none)

/-- `Order.purchase`: no-op if already `'purchased'`; otherwise record
status, purchase time and the billing snapshot, save, run
`update_order_type` when the order is business, run every item's
`purchase_item` (the `orderitems` queryset is lazy, so it sees the
migrated items), then send the confirmation e-mail.  Returns the final
order, the fulfillment side effects performed, and the exception that
escaped, if any. -/
def purchase (env : Env) (t : ℕ) (a : PurchaseArgs) (o : Order) :
    Order × List Event × Option CartException :=
  if o.status = OStatus.purchased then (o, [], none)
  else
    match purchaseStep env (purchaseBillingSave env t a o) with
    | (o3, some e) => (o3, [], some e)
    | (o3, none) =>
      match purchaseItemsLoop env o3.user t o3.items with
      | (items', evs, some e) => ({ o3 with items := items' }, evs, some e)
      | (items', evs, none) =>
        ({ o3 with items := items' }, evs ++ [Event.confirmationEmail o3.id], none)

/-- Replace the first element satisfying `p` (the row `save` of the
single object Django returns for a filtered query). -/
def replaceFirst (p : OrderItem → Bool) (f : OrderItem → OrderItem) :
    List OrderItem → List OrderItem
  | [] => []
  | i :: rest => if p i then f i :: rest else i :: replaceFirst p f rest

/-- The row filter of `CertificateItem.refund_cert_callback`:
`filter(course_id=…, user_id=…, status='purchased', mode='verified')`
(the user always matches inside a single order; `verified` is slug 1). -/
def refundTarget (course : ℕ) (i : OrderItem) : Bool :=
  decide (i.kind = ItemKind.certificateItem ∧ i.course_id = some course ∧
    i.status = OStatus.purchased ∧ i.mode = 1)

/-- `CertificateItem.refund_cert_callback` restricted to one order:
if the unenrollment is refundable and a purchased verified certificate
item for the course exists, mark that item and its order `'refunded'`
and e-mail billing; otherwise return unchanged. -/
def refund_cert_callback (refundable : Bool) (course rt : ℕ) (o : Order) :
    Order × List Event :=
  if ¬ refundable then (o, [])
  else if (o.items.filter (refundTarget course)).isEmpty then (o, [])
  else
    ({ o with
       status := OStatus.refunded,
       items := replaceFirst (refundTarget course)
         (fun i => { i with status := OStatus.refunded, refund_requested_time := some rt })
         o.items }, [Event.refundEmail o.id])

/-- `CertificateItem.add_to_order(order, course_id, cost, mode, currency)`:
the base-class currency check, then validation of the requested mode
against `CourseMode.modes_for_course_dict` (raising `InvalidCartItem`
when absent; `mode_valid` models that membership test, and course
existence is implied by it), then `get_or_create` on the certificate row
for this course and mode — updating the found row in place or creating a
fresh one — stamping `status := order.status`, `qty = 1`, the cost and
the currency, and saving `order.currency`. -/
def certificateItem_add_to_order (env : Env) (o : Order) (course_id : ℕ)
    (cost : ℚ) (mode : ℕ) (currency : ℕ) : Except CartException Order :=
  if o.currency ≠ currency ∧ o.items ≠ [] then
    Except.error CartException.invalidCartItem
  else if ¬ env.mode_valid course_id mode then
    Except.error CartException.invalidCartItem
  else if o.items.any (fun i => decide (i.kind = ItemKind.certificateItem ∧
      i.course_id = some course_id ∧ i.mode = mode)) then
    Except.ok
      { o with
        currency := currency,
        items := replaceFirst
          (fun i => decide (i.kind = ItemKind.certificateItem ∧
            i.course_id = some course_id ∧ i.mode = mode))
          (fun i => { i with
              status := o.status, qty := 1, unit_cost := cost,
              currency := currency })
          o.items }
  else
    Except.ok
      { o with
        currency := currency,
        next_item_id := o.next_item_id + 1,
        items := o.items ++
          [{ id := o.next_item_id, kind := ItemKind.certificateItem,
             course_id := some course_id, status := o.status, qty := 1,
             unit_cost := cost, list_price := none, currency := currency,
             mode := mode, fulfilled_time := none,
             refund_requested_time := none }] }

/-- `Donation.add_to_order(order, donation_amount, course_id, currency)`:
the base-class currency check, then the line-item description lookup —
which raises `CourseDoesNotExistException` when a course id is supplied
but unknown — then an unconditional `create` of the donation row with
`status := order.status` and `qty = 1` (the `donation_type` discriminant
is carried by whether `course_id` is set; the order's own currency is
not updated by this variant). -/
def donation_add_to_order (env : Env) (o : Order) (donation_amount : ℚ)
    (course_id : Option ℕ) (currency : ℕ) : Except CartException Order :=
  if o.currency ≠ currency ∧ o.items ≠ [] then
    Except.error CartException.invalidCartItem
  else
    match course_id with
    | some c =>
      if ¬ env.course_exists c then Except.error CartException.courseDoesNotExist
      else
        Except.ok
          { o with
            next_item_id := o.next_item_id + 1,
            items := o.items ++
              [{ id := o.next_item_id, kind := ItemKind.donation,
                 course_id := some c, status := o.status, qty := 1,
                 unit_cost := donation_amount, list_price := none,
                 currency := currency, mode := 0, fulfilled_time := none,
                 refund_requested_time := none }] }
    | none =>
      Except.ok
        { o with
          next_item_id := o.next_item_id + 1,
          items := o.items ++
            [{ id := o.next_item_id, kind := ItemKind.donation,
               course_id := none, status := o.status, qty := 1,
               unit_cost := donation_amount, list_price := none,
               currency := currency, mode := 0, fulfilled_time := none,
               refund_requested_time := none }] }

/-! ### Registration-code and coupon redemption -/

/-- A `CourseRegistrationCode` row (the `order`/`invoice` provenance
fields play no role in the verified claims). -/
structure CourseRegistrationCode where
  id : ℕ
  code : ℕ
  course_id : ℕ
deriving DecidableEq, Repr

/-- A `RegistrationCodeRedemption` row. -/
structure RegCodeRedemption where
  order_id : Option ℕ
  registration_code_id : ℕ
  redeemed_by : ℕ
deriving DecidableEq, Repr

/-- The item loop of `RegistrationCodeRedemption.add_reg_code_redemption`
over `order.orderitem_set`: at the first item whose (truthy) `course_id`
equals the code's course, raise `RegCodeAlreadyExistException` if any
redemption of this code exists, else record the redemption and zero the
item's price (saving it into `list_price`); if no item matches, raise
`ItemDoesNotExistAgainstRegCodeException`. -/
def regRedeemItems (code : CourseRegistrationCode) (oid uid : ℕ)
    (reds : List RegCodeRedemption) :
    List OrderItem → Except CartException Unit × List OrderItem × List RegCodeRedemption
  | [] => (Except.error CartException.itemDoesNotExistAgainstRegCode, [], reds)
  | i :: rest =>
    match i.course_id with
    | some c =>
      if c = code.course_id then
        if reds.any (fun r => decide (r.registration_code_id = code.id)) then
          (Except.error CartException.regCodeAlreadyExist, i :: rest, reds)
        else
          (Except.ok (),
           { i with list_price := some i.unit_cost, unit_cost := 0 } :: rest,
           reds ++ [{ order_id := some oid, registration_code_id := code.id,
                      redeemed_by := uid }])
      else
        let (r, rest', reds') := regRedeemItems code oid uid reds rest
        (r, i :: rest', reds')
    | none =>
      let (r, rest', reds') := regRedeemItems code oid uid reds rest
      (r, i :: rest', reds')

/-- `RegistrationCodeRedemption.add_reg_code_redemption(course_reg_code,
order)` against the table `reds` of existing redemptions. -/
def add_reg_code_redemption (code : CourseRegistrationCode) (o : Order)
    (reds : List RegCodeRedemption) :
    Except CartException CourseRegistrationCode × Order × List RegCodeRedemption :=
  match regRedeemItems code o.id o.user reds o.items with
  | (Except.ok _, items', reds') =>
    (Except.ok code, { o with items := items' }, reds')
  | (Except.error e, items', reds') =>
    (Except.error e, { o with items := items' }, reds')

/-- `RegistrationCodeRedemption.delete_registration_redemption(user,
cart)`: delete the redemptions filtered by `(redeemed_by, order)`. -/
def delete_registration_redemption (user : ℕ) (cart : Order)
    (reds : List RegCodeRedemption) : Order × List RegCodeRedemption :=
  if (reds.filter fun r =>
      decide (r.redeemed_by = user ∧ r.order_id = some cart.id)).isEmpty then
    (cart, reds)
  else
    (cart, reds.filter fun r =>
      ! decide (r.redeemed_by = user ∧ r.order_id = some cart.id))

/-- A `Coupon` row. -/
structure Coupon where
  id : ℕ
  code : ℕ
  course_id : ℕ
  percentage_discount : ℤ
  is_active : Bool
deriving DecidableEq, Repr

/-- A `CouponRedemption` row (carrying its coupon, as the source
dereferences `coupon_redemption.coupon`). -/
structure CouponRedemption where
  order_id : ℕ
  user_id : ℕ
  coupon : Coupon
deriving DecidableEq, Repr

/-- The item loop of `CouponRedemption.add_coupon_redemption`: discount
the first cart item whose (truthy) `course_id` equals the coupon's
course, record the redemption, and report whether any item matched. -/
def couponApplyItems (coupon : Coupon) (oid uid : ℕ)
    (reds : List CouponRedemption) :
    List OrderItem → Bool × List OrderItem × List CouponRedemption
  | [] => (false, [], reds)
  | i :: rest =>
    match i.course_id with
    | some c =>
      if c = coupon.course_id then
        (true,
         { i with list_price := some i.unit_cost,
                  unit_cost := get_discount_price coupon.percentage_discount i.unit_cost } :: rest,
         reds ++ [{ order_id := oid, user_id := uid, coupon := coupon }])
      else
        let (r, rest', reds') := couponApplyItems coupon oid uid reds rest
        (r, i :: rest', reds')
    | none =>
      let (r, rest', reds') := couponApplyItems coupon oid uid reds rest
      (r, i :: rest', reds')

/-- `CouponRedemption.add_coupon_redemption(coupon, order, cart_items)`:
raise `MultipleCouponsNotAllowedException` if some existing redemption
for `(order, order.user)` has a coupon whose `code` differs from the new
coupon's code or whose `id` equals the new coupon's id; otherwise apply
the discount to the first matching cart item. -/
def add_coupon_redemption (coupon : Coupon) (o : Order)
    (cart_items : List OrderItem) (reds : List CouponRedemption) :
    Except CartException Bool × List OrderItem × List CouponRedemption :=
  if ((reds.filter fun r => decide (r.order_id = o.id ∧ r.user_id = o.user)).any
      (fun r => decide (r.coupon.code ≠ coupon.code ∨ r.coupon.id = coupon.id))) then
    (Except.error CartException.multipleCouponsNotAllowed, cart_items, reds)
  else
    match couponApplyItems coupon o.id o.user reds cart_items with
    | (applied, items', reds') => (Except.ok applied, items', reds')

/-- `CouponRedemption.delete_coupon_redemption(user, cart)`: delete the
redemptions filtered by `(user, order)`. -/
def delete_coupon_redemption (user : ℕ) (cart : Order)
    (reds : List CouponRedemption) : Order × List CouponRedemption :=
  if (reds.filter fun r =>
      decide (r.user_id = user ∧ r.order_id = cart.id)).isEmpty then
    (cart, reds)
  else
    (cart, reds.filter fun r => ! decide (r.user_id = user ∧ r.order_id = cart.id))

/-- The denormalized-status invariant of the spec: every item's status
equals its order's status. -/
def status_mirrored (o : Order) : Bool :=
  o.items.all fun i => decide (i.status = o.status)

/-! ### Concrete fixtures for witnesses and counterexamples -/

/-- A permissive environment: every course exists, nobody is enrolled,
every mode costs 10 usd. -/
def envFix : Env :=
  { course_exists := fun _ => true, is_enrolled := fun _ _ => false,
    mode_slug := fun _ => 0, mode_min_price := fun _ => 10,
    mode_currency := fun _ => 0, mode_valid := fun _ _ => true,
    has_verification := fun _ => false, store_billing_info := false }

def argsFix : PurchaseArgs :=
  { first := 1, last := 2, street1 := 3, street2 := 4, city := 5, state := 6,
    postalcode := 7, country := 8, ccnum := 9, cardtype := 10,
    processor_reply_dump := 11 }

/-- A single-seat registration item for course 1 with quantity 3 at $50. -/
def itemPaid3 : OrderItem :=
  { id := 0, kind := ItemKind.paidCourseRegistration, course_id := some 1,
    status := OStatus.cart, qty := 3, unit_cost := 50, list_price := none,
    currency := 0, mode := 0, fulfilled_time := none,
    refund_requested_time := none }

/-- A personal cart holding `itemPaid3`. -/
def orderQty3 : Order :=
  { new_cart_for_user 100 7 with items := [itemPaid3], next_item_id := 1 }

/-- A purchased verified certificate item for course 1 at $30. -/
def itemCertPurchased : OrderItem :=
  { id := 0, kind := ItemKind.certificateItem, course_id := some 1,
    status := OStatus.purchased, qty := 1, unit_cost := 30, list_price := none,
    currency := 0, mode := 1, fulfilled_time := none,
    refund_requested_time := none }

/-- A purchased single-seat item for course 2 at $50. -/
def itemPaidPurchased : OrderItem :=
  { id := 1, kind := ItemKind.paidCourseRegistration, course_id := some 2,
    status := OStatus.purchased, qty := 1, unit_cost := 50, list_price := none,
    currency := 0, mode := 0, fulfilled_time := none,
    refund_requested_time := none }

/-- A purchased two-item order: a verified certificate plus a course seat. -/
def orderPurchasedTwo : Order :=
  { new_cart_for_user 101 7 with
    status := OStatus.purchased,
    items := [itemCertPurchased, itemPaidPurchased], next_item_id := 2 }

/-- A registration code (id 1) for course 5. -/
def codeFix : CourseRegistrationCode := { id := 1, code := 11, course_id := 5 }

/-- A redemption table in which `codeFix` has already been redeemed. -/
def regRedsFix : List RegCodeRedemption :=
  [{ order_id := none, registration_code_id := 1, redeemed_by := 9 }]

/-- A cart with a single item for course 7, which `codeFix` does not match. -/
def orderRegNoMatch : Order :=
  { new_cart_for_user 102 7 with
    items := [{ itemPaid3 with course_id := some 7 }],
    next_item_id := 1 }

/-- A cart with a single item for course 5, which `codeFix` matches. -/
def orderRegMatch : Order :=
  { new_cart_for_user 103 7 with
    items := [{ itemPaid3 with course_id := some 5 }], next_item_id := 1 }

/-- A 20%-off coupon (id 3, code 77) for course 1. -/
def couponFix : Coupon :=
  { id := 3, code := 77, course_id := 1, percentage_discount := 20,
    is_active := true }

/-- A $100.00 single-seat item for course 1. -/
def itemCost100 : OrderItem :=
  { itemPaid3 with qty := 1, unit_cost := 100 }

/-- An empty cart (order 104, user 7). -/
def orderEmptyCart : Order := new_cart_for_user 104 7

/-- A cart holding the $100 item, no discount applied yet. -/
def orderCost100 : Order :=
  { new_cart_for_user 105 7 with items := [itemCost100], next_item_id := 1 }

/-- An item whose `list_price` is set but zero (and `unit_cost` zero). -/
def itemZeroListPrice : OrderItem :=
  { itemPaid3 with unit_cost := 0, list_price := some 0 }

/-- A cart holding `itemZeroListPrice`. -/
def orderZeroListPrice : Order :=
  { new_cart_for_user 106 7 with items := [itemZeroListPrice], next_item_id := 1 }

/-! ## Theorems -/

/-- C7: `Order.start_purchase` is a no-op for any order whose status is
not `'cart'`; for an order in `'cart'` status it sets the order's status
to `'paying'` and sets every contained item's status to `'paying'`. -/
theorem start_purchase_spec (o : Order) :
    (o.status ≠ OStatus.cart → start_purchase o = o)
    ∧ (o.status = OStatus.cart →
        (start_purchase o).status = OStatus.paying
        ∧ ∀ i ∈ (start_purchase o).items, i.status = OStatus.paying) := by
  constructor
  · intro h
    simp [start_purchase, h]
  · intro h
    refine ⟨by simp [start_purchase, h], ?_⟩
    intro i hi
    simp only [start_purchase, if_pos h] at hi
    rcases List.mem_map.mp hi with ⟨j, _, rfl⟩
    rfl

/-- Witness for `start_purchase_spec`: a cart order moves to paying, a
purchased order is untouched. -/
theorem start_purchase_spec_witness :
    (start_purchase orderQty3).status = OStatus.paying
    ∧ start_purchase orderPurchasedTwo = orderPurchasedTwo :=
  ⟨((start_purchase_spec orderQty3).2 rfl).1,
   (start_purchase_spec orderPurchasedTwo).1 (by decide)⟩

/-- Sum of line costs over a status filter, as a sum of guarded terms. -/
lemma sum_filter_status (s : OStatus) (l : List OrderItem) :
    ((l.filter fun i => decide (i.status = s)).map line_cost).sum
      = (l.map fun i => if i.status = s then (i.qty : ℚ) * i.unit_cost else 0).sum := by
  induction l with
  | nil => rfl
  | cons i l ih =>
    by_cases h : i.status = s <;> simp [h, line_cost, ih]

/-- C8: `Order.total_cost` equals the sum of `quantity × unit_cost` over
exactly those items whose status equals the order's status (items with a
diverging status contribute nothing); concretely, after the certificate
refund on the two-item purchased order, the total counts only the
refunded $30 certificate, not the sibling $50 purchased seat. -/
theorem total_cost_spec (o : Order) :
    (total_cost o =
      (o.items.map fun i =>
        if i.status = o.status then (i.qty : ℚ) * i.unit_cost else 0).sum)
    ∧ total_cost (refund_cert_callback true 1 99 orderPurchasedTwo).1 = 30 := by
  constructor
  · exact sum_filter_status o.status o.items
  · have h : (refund_cert_callback true 1 99 orderPurchasedTwo).1 =
        { orderPurchasedTwo with
          status := OStatus.refunded,
          items := [{ itemCertPurchased with
                        status := OStatus.refunded,
                        refund_requested_time := some 99 },
                    itemPaidPurchased] } := by
      simp [refund_cert_callback, replaceFirst, refundTarget, orderPurchasedTwo,
        itemCertPurchased, itemPaidPurchased, new_cart_for_user]
    rw [h]
    simp [total_cost, orderPurchasedTwo, itemCertPurchased, itemPaidPurchased,
      new_cart_for_user, line_cost]

/-- If a filter keeps nothing, filtering on the negation keeps everything. -/
lemma filter_not_of_filter_nil {α : Type} (p : α → Bool) (l : List α)
    (h : l.filter p = []) : l.filter (fun a => ! p a) = l := by
  rw [List.filter_eq_self]
  intro a ha
  have := List.filter_eq_nil_iff.mp h a ha
  simpa using this

/-- C9: the two redemption-removal helpers return the cart (hence every
item's `unit_cost` and `list_price`) unchanged, and remove exactly the
redemption rows matching the given user and cart. -/
theorem delete_redemption_frame (user : ℕ) (cart : Order)
    (regReds : List RegCodeRedemption) (coupReds : List CouponRedemption) :
    (delete_registration_redemption user cart regReds).1 = cart
    ∧ (delete_registration_redemption user cart regReds).2 =
        regReds.filter
          (fun r => ! decide (r.redeemed_by = user ∧ r.order_id = some cart.id))
    ∧ (delete_coupon_redemption user cart coupReds).1 = cart
    ∧ (delete_coupon_redemption user cart coupReds).2 =
        coupReds.filter
          (fun r => ! decide (r.user_id = user ∧ r.order_id = cart.id)) := by
  unfold delete_registration_redemption delete_coupon_redemption
  refine ⟨?_, ?_, ?_, ?_⟩
  · split <;> rfl
  · split
    case isTrue h =>
      exact (filter_not_of_filter_nil _ _ (List.isEmpty_iff.mp h)).symm
    case isFalse h => rfl
  · split <;> rfl
  · split
    case isTrue h =>
      exact (filter_not_of_filter_nil _ _ (List.isEmpty_iff.mp h)).symm
    case isFalse h => rfl

/-- C3: `add_coupon_redemption` raises `MultipleCouponsNotAllowedException`
exactly when some existing redemption for this order and this user has a
coupon whose `code` differs from the new coupon's code or whose `id`
equals the new coupon's id — so re-applying the same coupon raises, a
different coupon with a different code raises, and the only non-raising
conflict-free case with an existing redemption is a different coupon
carrying the same code. -/
theorem coupon_conflict_boundary (coupon : Coupon) (o : Order)
    (cart_items : List OrderItem) (reds : List CouponRedemption) :
    (add_coupon_redemption coupon o cart_items reds).1 =
      Except.error CartException.multipleCouponsNotAllowed
    ↔ ∃ r ∈ reds, (r.order_id = o.id ∧ r.user_id = o.user)
        ∧ (r.coupon.code ≠ coupon.code ∨ r.coupon.id = coupon.id) := by
  unfold add_coupon_redemption
  split
  case isTrue h =>
    simp only [List.any_eq_true, List.mem_filter, decide_eq_true_eq] at h
    rcases h with ⟨r, ⟨hr, hro, hru⟩, hcond⟩
    refine iff_of_true rfl ⟨r, hr, ⟨hro, hru⟩, hcond⟩
  case isFalse h =>
    rcases hA : couponApplyItems coupon o.id o.user reds cart_items with
      ⟨applied, items2, reds2⟩
    simp only [hA]
    constructor
    · intro hc
      simp at hc
    · intro hex
      exfalso
      apply h
      rcases hex with ⟨r, hr, ⟨hro, hru⟩, hcond⟩
      simp only [List.any_eq_true, List.mem_filter, decide_eq_true_eq]
      exact ⟨r, ⟨hr, hro, hru⟩, hcond⟩


/-- Correctness of `floorLogB`: it computes the floor logarithm, as
certified by bracketing powers. -/
lemma floorLogB_eq {nb : ℕ} (hb : 1 < nb) {q : ℚ} {e : ℤ}
    (h1 : (nb : ℚ) ^ e ≤ q) (h2 : q < (nb : ℚ) ^ (e + 1)) :
    floorLogB nb q = e := by
  have hb1 : (1 : ℚ) < (nb : ℚ) := by exact_mod_cast hb
  have hb0 : (0 : ℚ) < (nb : ℚ) := lt_trans one_pos hb1
  have hq0 : 0 < q := lt_of_lt_of_le (zpow_pos hb0 e) h1
  set La := Nat.log nb q.num.natAbs with hLa
  set Lb := Nat.log nb q.den with hLb
  have hanz : q.num.natAbs ≠ 0 := by
    have := Rat.num_pos.mpr hq0
    omega
  have hbnz : q.den ≠ 0 := q.den_nz
  have hA1 : ((nb : ℚ)) ^ (La : ℤ) ≤ (q.num.natAbs : ℚ) := by
    rw [zpow_natCast]
    exact_mod_cast Nat.pow_log_le_self nb hanz
  have hA2 : (q.num.natAbs : ℚ) < (nb : ℚ) ^ ((La : ℤ) + 1) := by
    have := Nat.lt_pow_succ_log_self hb q.num.natAbs
    rw [show (La : ℤ) + 1 = ((La + 1 : ℕ) : ℤ) by push_cast; ring, zpow_natCast]
    exact_mod_cast this
  have hB1 : ((nb : ℚ)) ^ (Lb : ℤ) ≤ (q.den : ℚ) := by
    rw [zpow_natCast]
    exact_mod_cast Nat.pow_log_le_self nb hbnz
  have hB2 : (q.den : ℚ) < (nb : ℚ) ^ ((Lb : ℤ) + 1) := by
    have := Nat.lt_pow_succ_log_self hb q.den
    rw [show (Lb : ℤ) + 1 = ((Lb + 1 : ℕ) : ℤ) by push_cast; ring, zpow_natCast]
    exact_mod_cast this
  have hden0 : (0 : ℚ) < (q.den : ℚ) := by exact_mod_cast q.pos
  have hnum : (q.num.natAbs : ℚ) = q * (q.den : ℚ) := by
    have hnn : (q.num : ℚ) = (q.num.natAbs : ℚ) := by
      have := Rat.num_pos.mpr hq0
      rw [Int.cast_natAbs]
      simp [abs_of_pos this]
    have h := Rat.num_div_den q
    rw [div_eq_iff (ne_of_gt hden0)] at h
    rw [← hnn]
    exact h
  have hup : q < (nb : ℚ) ^ ((La : ℤ) - Lb + 1) := by
    rw [show ((La : ℤ) - Lb + 1) = ((La : ℤ) + 1) + (-(Lb : ℤ)) by ring,
      zpow_add₀ (ne_of_gt hb0)]
    have hkey : q * (q.den : ℚ) < (nb : ℚ) ^ ((La : ℤ) + 1) := by
      rw [← hnum]; exact hA2
    calc q = q * (q.den : ℚ) * ((q.den : ℚ))⁻¹ := by field_simp
    _ < (nb : ℚ) ^ ((La : ℤ) + 1) * ((q.den : ℚ))⁻¹ := by
        apply mul_lt_mul_of_pos_right hkey
        positivity
    _ ≤ (nb : ℚ) ^ ((La : ℤ) + 1) * (nb : ℚ) ^ (-(Lb : ℤ)) := by
        apply mul_le_mul_of_nonneg_left _ (by positivity)
        rw [zpow_neg]
        exact inv_anti₀ (by positivity) hB1
  have hlo : (nb : ℚ) ^ ((La : ℤ) - Lb - 1) < q := by
    rw [show ((La : ℤ) - Lb - 1) = (La : ℤ) + (-((Lb : ℤ) + 1)) by ring,
      zpow_add₀ (ne_of_gt hb0)]
    have hkey : (nb : ℚ) ^ (La : ℤ) ≤ q * (q.den : ℚ) := by rw [← hnum]; exact hA1
    calc (nb : ℚ) ^ (La : ℤ) * (nb : ℚ) ^ (-((Lb : ℤ) + 1))
        < (nb : ℚ) ^ (La : ℤ) * ((q.den : ℚ))⁻¹ := by
          apply mul_lt_mul_of_pos_left _ (by positivity)
          rw [zpow_neg]
          exact inv_strictAnti₀ hden0 hB2
    _ ≤ q * (q.den : ℚ) * ((q.den : ℚ))⁻¹ := by
          apply mul_le_mul_of_nonneg_right hkey (by positivity)
    _ = q := by field_simp
  unfold floorLogB
  rw [← hLa, ← hLb]
  split_ifs with h
  · have he1 : e < (La : ℤ) - Lb := by
      have := lt_of_le_of_lt h1 h
      exact (zpow_lt_zpow_iff_right₀ hb1).mp this
    have he2 : (La : ℤ) - Lb - 1 < e + 1 := by
      have := lt_trans hlo h2
      exact (zpow_lt_zpow_iff_right₀ hb1).mp this
    omega
  · push_neg at h
    have he1 : (La : ℤ) - Lb < e + 1 := by
      have := lt_of_le_of_lt h h2
      exact (zpow_lt_zpow_iff_right₀ hb1).mp this
    have he2 : e < (La : ℤ) - Lb + 1 := by
      have := lt_of_le_of_lt h1 hup
      exact (zpow_lt_zpow_iff_right₀ hb1).mp this
    omega

/-- Evaluation of `roundHalfEvenZ` below the halfway point. -/
lemma roundHalfEvenZ_of_lt {q : ℚ} {n : ℤ} (hf : ⌊q⌋ = n) (h : q - (n : ℚ) < 1/2) :
    roundHalfEvenZ q = n := by
  simp only [roundHalfEvenZ, hf]
  rw [if_pos h]

/-- Evaluation of `roundHalfEvenZ` above the halfway point. -/
lemma roundHalfEvenZ_of_gt {q : ℚ} {n : ℤ} (hf : ⌊q⌋ = n) (h : 1/2 < q - (n : ℚ)) :
    roundHalfEvenZ q = n + 1 := by
  simp only [roundHalfEvenZ, hf]
  rw [if_neg (by linarith), if_pos h]

/-- Evaluation of `roundHalfEvenZ` on a tie whose floor is even. -/
lemma roundHalfEvenZ_tie_even {q : ℚ} {n : ℤ} (hf : ⌊q⌋ = n) (h : q - (n : ℚ) = 1/2)
    (he : n % 2 = 0) : roundHalfEvenZ q = n := by
  simp only [roundHalfEvenZ, hf]
  rw [if_neg (by rw [h]; exact lt_irrefl _), if_neg (by rw [h]; exact lt_irrefl _),
    if_pos he]

/-- `roundHalfEvenZ` fixes integers. -/
lemma roundHalfEvenZ_intCast (n : ℤ) : roundHalfEvenZ (n : ℚ) = n := by
  apply roundHalfEvenZ_of_lt (Int.floor_intCast n)
  norm_num

/-- `roundHalfEvenZ` at zero. -/
lemma roundHalfEvenZ_zero : roundHalfEvenZ 0 = 0 := by
  simpa using roundHalfEvenZ_intCast 0

/-- `floatOfRat` at zero. -/
lemma floatOfRat_zero : floatOfRat 0 = 0 := by
  simp [floatOfRat]

/-- `roundSig` at zero. -/
lemma roundSig_zero (p : ℕ) : roundSig p 0 = 0 := by
  simp [roundSig]

/-- `fmt2HalfEven` at zero. -/
lemma fmt2HalfEven_zero : fmt2HalfEven 0 = 0 := by
  unfold fmt2HalfEven
  rw [zero_mul, roundHalfEvenZ_zero]
  norm_num

/-- The binary64 double nearest to 1/4 is 1/4 itself. -/
lemma floatOfRat_quarter : floatOfRat (1/4 : ℚ) = 1/4 := by
  have h0 : ¬ ((1/4 : ℚ) = 0) := by norm_num
  have habs : |(1/4 : ℚ)| = 1/4 := by rw [abs_of_pos]; norm_num
  have hlog : floorLogB 2 (1/4 : ℚ) = -2 :=
    floorLogB_eq (by norm_num) (by norm_num) (by norm_num)
  simp only [floatOfRat, if_neg h0, habs, hlog]
  rw [show (52 : ℤ) - (-2) = 54 by norm_num]
  rw [show (1/4 : ℚ) * (2:ℚ)^(54:ℤ) = ((2^52 : ℤ) : ℚ) by norm_num]
  rw [roundHalfEvenZ_intCast]
  norm_num

/-- The binary64 double nearest to 1/5 (`0.2` in Python), exactly. -/
lemma floatOfRat_fifth :
    floatOfRat (1/5 : ℚ) = 7205759403792794 / 36028797018963968 := by
  have h0 : ¬ ((1/5 : ℚ) = 0) := by norm_num
  have habs : |(1/5 : ℚ)| = 1/5 := by rw [abs_of_pos]; norm_num
  have hlog : floorLogB 2 (1/5 : ℚ) = -3 :=
    floorLogB_eq (by norm_num) (by norm_num) (by norm_num)
  simp only [floatOfRat, if_neg h0, habs, hlog]
  rw [show (52 : ℤ) - (-3) = 55 by norm_num]
  rw [show (1/5 : ℚ) * (2:ℚ)^(55:ℤ) = 36028797018963968/5 by norm_num]
  rw [roundHalfEvenZ_of_gt (n := 7205759403792793) (by norm_num) (by norm_num)]
  norm_num

/-- 1/40 already fits in 28 significant digits, so the context rounding
fixes it. -/
lemma roundSig_one_fortieth : roundSig 28 (1/40 : ℚ) = 1/40 := by
  have h0 : ¬ ((1/40 : ℚ) = 0) := by norm_num
  have habs : |(1/40 : ℚ)| = 1/40 := by rw [abs_of_pos]; norm_num
  have hlog : floorLogB 10 (1/40 : ℚ) = -2 :=
    floorLogB_eq (by norm_num) (by norm_num) (by norm_num)
  simp only [roundSig, if_neg h0, habs, hlog]
  rw [show ((28 : ℕ) : ℤ) - 1 - (-2) = 29 by norm_num]
  rw [show (1/40 : ℚ) * (10:ℚ)^(29:ℤ) = ((2500000000000000000000000000 : ℤ) : ℚ) by
    norm_num]
  rw [roundHalfEvenZ_intCast]
  norm_num

/-- `get_discount_price 25 (1/10)`: Python rounds the exact discount
`0.025` half-even to `0.02`, so the result is `0.08`. -/
lemma get_discount_price_25_tenth : get_discount_price 25 (1/10) = 2/25 := by
  unfold get_discount_price
  rw [show (((25 : ℤ) : ℚ)) / 100 = 1/4 by norm_num, floatOfRat_quarter]
  rw [show (1/4 : ℚ) * (1/10) = 1/40 by norm_num, roundSig_one_fortieth]
  unfold fmt2HalfEven
  rw [show (1/40 : ℚ) * 100 = 5/2 by norm_num]
  rw [roundHalfEvenZ_tie_even (n := 2) (by norm_num) (by norm_num) (by norm_num)]
  norm_num

/-- The spec's round-half-up formula gives `0.07` at the same input. -/
lemma spec_discounted_half_up_25_tenth :
    spec_discounted_half_up 25 (1/10) = 7/100 := by
  unfold spec_discounted_half_up roundHalfUpZ
  norm_num

/-- `get_discount_price 20 100 = 80`, through the float 0.2 and the
28-digit context. -/
lemma get_discount_price_20_100 : get_discount_price 20 100 = 80 := by
  unfold get_discount_price
  rw [show (((20 : ℤ) : ℚ)) / 100 = 1/5 by norm_num, floatOfRat_fifth]
  rw [show ((7205759403792794 : ℚ) / 36028797018963968) * 100 =
      90071992547409925/4503599627370496 by norm_num]
  have h0 : ¬ ((90071992547409925/4503599627370496 : ℚ) = 0) := by norm_num
  have habs : |(90071992547409925/4503599627370496 : ℚ)| =
      90071992547409925/4503599627370496 := by rw [abs_of_pos]; norm_num
  have hlog : floorLogB 10 (90071992547409925/4503599627370496 : ℚ) = 1 :=
    floorLogB_eq (by norm_num) (by norm_num) (by norm_num)
  simp only [roundSig, if_neg h0, habs, hlog]
  rw [show ((28 : ℕ) : ℤ) - 1 - 1 = 26 by norm_num]
  rw [show (90071992547409925/4503599627370496 : ℚ) * (10:ℚ)^(26:ℤ) =
      134217728000000007450580596923828125/67108864 by norm_num]
  rw [roundHalfEvenZ_of_gt (n := 2000000000000000111022302462) (by norm_num)
    (by norm_num)]
  unfold fmt2HalfEven
  rw [show (((2000000000000000111022302462 + 1 : ℤ) : ℚ)) / (10:ℚ)^(26:ℤ) * 100 =
      2000000000000000111022302463/1000000000000000000000000 by norm_num]
  rw [roundHalfEvenZ_of_lt (n := 2000) (by norm_num) (by norm_num)]
  norm_num

/-- A discount of any percentage leaves a zero price at zero. -/
lemma get_discount_price_zero (p : ℤ) : get_discount_price p 0 = 0 := by
  unfold get_discount_price
  rw [mul_zero, roundSig_zero, fmt2HalfEven_zero, sub_zero]

/-- C4 counterexample: for percentage 25 and value $0.10 the code's
discounted price is $0.08, while the spec's round-half-up formula gives
$0.07 — the claimed round-half-up behaviour is false at this input. -/
theorem discount_rounding_cex :
    get_discount_price 25 (1/10) = 2/25
    ∧ spec_discounted_half_up 25 (1/10) = 7/100
    ∧ get_discount_price 25 (1/10) ≠ spec_discounted_half_up 25 (1/10) := by
  refine ⟨get_discount_price_25_tenth, spec_discounted_half_up_25_tenth, ?_⟩
  rw [get_discount_price_25_tenth, spec_discounted_half_up_25_tenth]
  norm_num

/-- C4 amended: the discount is rounded at the cent with ROUND_HALF_EVEN
(ties to even, the Python decimal default), not round-half-up, and the
percentage/100 factor passes through binary floating point; the spec's
example still holds: a 20% coupon on a $100.00 item yields
unit_cost = $80.00 and list_price = $100.00, a 0% coupon changes
nothing, and on the $0.10 item the half-even cent rounding yields
$0.08 instead of half-up's $0.07. -/
theorem discount_rounding_amended :
    get_discount_price 20 100 = 80
    ∧ ((add_coupon_redemption couponFix orderEmptyCart [itemCost100] []).2.1.map
        (fun i => (i.unit_cost, i.list_price))) = [((80 : ℚ), some (100 : ℚ))]
    ∧ get_discount_price 25 (1/10) = 1/10 - fmt2HalfEven ((25 : ℚ) / 100 * (1/10))
    ∧ ∀ v : ℚ, get_discount_price 0 v = v := by
  refine ⟨get_discount_price_20_100, ?_, ?_, ?_⟩
  · simp [add_coupon_redemption, couponApplyItems, couponFix, orderEmptyCart,
      itemCost100, itemPaid3, new_cart_for_user, get_discount_price_20_100]
  · rw [get_discount_price_25_tenth]
    unfold fmt2HalfEven
    rw [show (25 : ℚ) / 100 * (1/10) = 5/200 by norm_num,
      show (5/200 : ℚ) * 100 = 5/2 by norm_num]
    rw [roundHalfEvenZ_tie_even (n := 2) (by norm_num) (by norm_num) (by norm_num)]
    norm_num
  · intro v
    unfold get_discount_price
    rw [show (((0 : ℤ) : ℚ)) / 100 = 0 by norm_num, floatOfRat_zero, zero_mul,
      roundSig_zero, fmt2HalfEven_zero, sub_zero]


/-- When the code already has a redemption, the item loop of
`add_reg_code_redemption` raises without touching any item: the error is
`regCodeAlreadyExist` if some item matches the code's course, and
`itemDoesNotExistAgainstRegCode` otherwise. -/
lemma regRedeemItems_already (code : CourseRegistrationCode) (oid uid : ℕ)
    (reds : List RegCodeRedemption)
    (h : reds.any (fun r => decide (r.registration_code_id = code.id)) = true) :
    ∀ l : List OrderItem,
      regRedeemItems code oid uid reds l =
        (Except.error
          (if l.any (fun i => decide (i.course_id = some code.course_id))
           then CartException.regCodeAlreadyExist
           else CartException.itemDoesNotExistAgainstRegCode), l, reds) := by
  intro l
  induction l with
  | nil => simp [regRedeemItems]
  | cons i rest ih =>
    cases hc : i.course_id with
    | none => simp [regRedeemItems, hc, ih]
    | some c =>
      by_cases hcc : c = code.course_id
      · subst hcc
        simp [regRedeemItems, hc, h]
      · simp [regRedeemItems, hc, hcc, ih]

/-- C2 counterexample: the registration code of `codeFix` already has a
redemption record, yet redeeming it against a cart whose only item is
for a different course raises `ItemDoesNotExistAgainstRegCodeException`,
not the claimed `RegCodeAlreadyExistException`. -/
theorem reg_code_second_redemption_cex :
    (∃ r ∈ regRedsFix, r.registration_code_id = codeFix.id)
    ∧ (add_reg_code_redemption codeFix orderRegNoMatch regRedsFix).1 =
        Except.error CartException.itemDoesNotExistAgainstRegCode
    ∧ CartException.itemDoesNotExistAgainstRegCode ≠
        CartException.regCodeAlreadyExist := by
  refine ⟨⟨{ order_id := none, registration_code_id := 1, redeemed_by := 9 },
    by simp [regRedsFix], rfl⟩, ?_, by simp⟩
  have h := regRedeemItems_already codeFix orderRegNoMatch.id orderRegNoMatch.user
    regRedsFix (by simp [regRedsFix, codeFix]) orderRegNoMatch.items
  unfold add_reg_code_redemption
  rw [h]
  simp [orderRegNoMatch, itemPaid3, codeFix, new_cart_for_user]

/-- C2 amended: a second redemption of an already-redeemed code raises
`RegCodeAlreadyExistException` exactly when the order contains an item
for the code's course, and `ItemDoesNotExistAgainstRegCodeException`
otherwise; in both cases the order (hence every item's `unit_cost` and
`list_price`) and the redemption table are unchanged. -/
theorem reg_code_second_redemption_spec (code : CourseRegistrationCode)
    (o : Order) (reds : List RegCodeRedemption)
    (h : ∃ r ∈ reds, r.registration_code_id = code.id) :
    (add_reg_code_redemption code o reds).1 =
      Except.error
        (if o.items.any (fun i => decide (i.course_id = some code.course_id))
         then CartException.regCodeAlreadyExist
         else CartException.itemDoesNotExistAgainstRegCode)
    ∧ (add_reg_code_redemption code o reds).2.1 = o
    ∧ (add_reg_code_redemption code o reds).2.2 = reds := by
  have hany : reds.any (fun r => decide (r.registration_code_id = code.id)) = true := by
    rcases h with ⟨r, hr, he⟩
    exact List.any_eq_true.mpr ⟨r, hr, by simpa using he⟩
  have hh := regRedeemItems_already code o.id o.user reds hany o.items
  unfold add_reg_code_redemption
  rw [hh]
  exact ⟨rfl, rfl, rfl⟩

/-- Witness for `reg_code_second_redemption_spec`: the already-redeemed
code against a cart that does contain a matching item. -/
theorem reg_code_second_redemption_spec_witness :
    (add_reg_code_redemption codeFix orderRegMatch regRedsFix).1 =
      Except.error
        (if orderRegMatch.items.any
            (fun i => decide (i.course_id = some codeFix.course_id))
         then CartException.regCodeAlreadyExist
         else CartException.itemDoesNotExistAgainstRegCode)
    ∧ (add_reg_code_redemption codeFix orderRegMatch regRedsFix).2.1 = orderRegMatch
    ∧ (add_reg_code_redemption codeFix orderRegMatch regRedsFix).2.2 = regRedsFix :=
  reg_code_second_redemption_spec codeFix orderRegMatch regRedsFix
    ⟨{ order_id := none, registration_code_id := 1, redeemed_by := 9 },
      by simp [regRedsFix], rfl⟩

/-- C10 counterexample: an item whose `list_price` is set (to zero) is
left untouched by `reset_cart_items_prices` — its `list_price` is not
cleared to `None`, because the source tests Python truthiness. -/
theorem reset_prices_zero_list_price_cex :
    (∀ i ∈ orderZeroListPrice.items, i.list_price ≠ none)
    ∧ ¬ (∀ i ∈ (reset_cart_items_prices orderZeroListPrice).items,
          i.list_price = none) := by
  constructor
  · intro i hi
    simp [orderZeroListPrice, itemZeroListPrice, itemPaid3, new_cart_for_user] at hi
    rw [hi]
    simp
  · intro hall
    have := hall { itemZeroListPrice with unit_cost := 0, list_price := some 0 }
    simp [reset_cart_items_prices, resetItemPrice, orderZeroListPrice,
      itemZeroListPrice, itemPaid3, new_cart_for_user] at this


/-- `resetItemPrice` on an item with no `list_price`. -/
lemma resetItemPrice_of_none {i : OrderItem} (h : i.list_price = none) :
    resetItemPrice i = i := by
  simp [resetItemPrice, h]

/-- `resetItemPrice` on an item whose `list_price` is zero (falsy). -/
lemma resetItemPrice_of_zero {i : OrderItem} (h : i.list_price = some 0) :
    resetItemPrice i = i := by
  simp [resetItemPrice, h]

/-- `resetItemPrice` on an item with a truthy `list_price`. -/
lemma resetItemPrice_of_ne {i : OrderItem} {p : ℚ} (h : i.list_price = some p)
    (hp : p ≠ 0) :
    resetItemPrice i = { i with unit_cost := p, list_price := none } := by
  simp [resetItemPrice, h, hp]

/-- Undiscounted items are fixed by the reset pass. -/
lemma resetItems_id {l : List OrderItem} (h : ∀ i ∈ l, i.list_price = none) :
    l.map resetItemPrice = l := by
  induction l with
  | nil => rfl
  | cons i rest ih =>
    rw [List.map_cons, resetItemPrice_of_none (h i (List.mem_cons_self i rest)),
      ih fun j hj => h j (List.mem_cons_of_mem i hj)]

/-- Applying a coupon to undiscounted items and then resetting restores
every unit cost. -/
lemma couponApply_reset_units (coupon : Coupon) (oid uid : ℕ)
    (creds : List CouponRedemption) :
    ∀ l : List OrderItem, (∀ i ∈ l, i.list_price = none) →
      ((couponApplyItems coupon oid uid creds l).2.1.map resetItemPrice).map
          OrderItem.unit_cost
        = l.map OrderItem.unit_cost := by
  intro l
  induction l with
  | nil => intro _; rfl
  | cons i rest ih =>
    intro h
    have hi : i.list_price = none := h i (List.mem_cons_self i rest)
    have hrest : ∀ j ∈ rest, j.list_price = none :=
      fun j hj => h j (List.mem_cons_of_mem i hj)
    cases hc : i.course_id with
    | none =>
      rcases hrec : couponApplyItems coupon oid uid creds rest with ⟨rr, rest2, reds2⟩
      have ih2 := ih hrest
      rw [hrec] at ih2
      simp only [couponApplyItems, hc, hrec, List.map_cons,
        resetItemPrice_of_none hi]
      rw [ih2]
    | some c =>
      by_cases hcc : c = coupon.course_id
      · subst hcc
        simp only [couponApplyItems, hc, eq_self_iff_true, if_true, List.map_cons]
        rw [resetItems_id hrest]
        by_cases hu : i.unit_cost = 0
        · rw [resetItemPrice_of_zero (by simp [hu])]
          simp [hu, get_discount_price_zero]
        · rw [resetItemPrice_of_ne (p := i.unit_cost) (by simp) hu]
      · rcases hrec : couponApplyItems coupon oid uid creds rest with ⟨rr, rest2, reds2⟩
        have ih2 := ih hrest
        rw [hrec] at ih2
        simp only [couponApplyItems, hc, if_neg hcc, hrec, List.map_cons,
          resetItemPrice_of_none hi]
        rw [ih2]

/-- Redeeming a registration code against undiscounted items and then
resetting restores every unit cost. -/
lemma regRedeem_reset_units (code : CourseRegistrationCode) (oid uid : ℕ)
    (rreds : List RegCodeRedemption) :
    ∀ l : List OrderItem, (∀ i ∈ l, i.list_price = none) →
      ((regRedeemItems code oid uid rreds l).2.1.map resetItemPrice).map
          OrderItem.unit_cost
        = l.map OrderItem.unit_cost := by
  intro l
  induction l with
  | nil => intro _; rfl
  | cons i rest ih =>
    intro h
    have hi : i.list_price = none := h i (List.mem_cons_self i rest)
    have hrest : ∀ j ∈ rest, j.list_price = none :=
      fun j hj => h j (List.mem_cons_of_mem i hj)
    cases hc : i.course_id with
    | none =>
      rcases hrec : regRedeemItems code oid uid rreds rest with ⟨rr, rest2, reds2⟩
      have ih2 := ih hrest
      rw [hrec] at ih2
      simp only [regRedeemItems, hc, hrec, List.map_cons,
        resetItemPrice_of_none hi]
      rw [ih2]
    | some c =>
      by_cases hcc : c = code.course_id
      · subst hcc
        by_cases hred : rreds.any (fun r => decide (r.registration_code_id = code.id))
        · simp only [regRedeemItems, hc, eq_self_iff_true, if_true, if_pos hred,
            List.map_cons, resetItemPrice_of_none hi, resetItems_id hrest]
        · simp only [regRedeemItems, hc, eq_self_iff_true, if_true, if_neg hred,
            List.map_cons]
          rw [resetItems_id hrest]
          by_cases hu : i.unit_cost = 0
          · rw [resetItemPrice_of_zero (by simp [hu])]
            simp [hu]
          · rw [resetItemPrice_of_ne (p := i.unit_cost) (by simp) hu]
      · rcases hrec : regRedeemItems code oid uid rreds rest with ⟨rr, rest2, reds2⟩
        have ih2 := ih hrest
        rw [hrec] at ih2
        simp only [regRedeemItems, hc, if_neg hcc, hrec, List.map_cons,
          resetItemPrice_of_none hi]
        rw [ih2]

/-- C10 amended: `reset_cart_items_prices` rewrites each item with a
truthy (set and nonzero) `list_price` to carry that price as `unit_cost`
with `list_price` cleared, and leaves items with `list_price` unset — or
set to the falsy value zero — unchanged; composing a coupon or a
registration-code discount with the reset restores every item's original
`unit_cost` on a cart with no discount yet applied (including zero-cost
items, whose discount is zero anyway). -/
theorem reset_prices_spec (o oc : Order) (coupon : Coupon)
    (code : CourseRegistrationCode) (creds : List CouponRedemption)
    (rreds : List RegCodeRedemption)
    (h : ∀ i ∈ oc.items, i.list_price = none) :
    List.Forall₂
      (fun i i' =>
        (i.list_price = none → i' = i)
        ∧ (i.list_price = some 0 → i' = i)
        ∧ (∀ p : ℚ, i.list_price = some p → p ≠ 0 →
            i' = { i with unit_cost := p, list_price := none }))
      o.items (reset_cart_items_prices o).items
    ∧ (reset_cart_items_prices
        { oc with
          items := (add_coupon_redemption coupon oc oc.items creds).2.1 }).items.map
        OrderItem.unit_cost = oc.items.map OrderItem.unit_cost
    ∧ (reset_cart_items_prices (add_reg_code_redemption code oc rreds).2.1).items.map
        OrderItem.unit_cost = oc.items.map OrderItem.unit_cost := by
  refine ⟨?_, ?_, ?_⟩
  · show List.Forall₂ _ o.items (o.items.map resetItemPrice)
    induction o.items with
    | nil => exact List.Forall₂.nil
    | cons i rest ih =>
      refine List.Forall₂.cons ?_ ih
      refine ⟨fun hn => ?_, fun hz => ?_, fun p hp hpz => ?_⟩
      · exact resetItemPrice_of_none hn
      · exact resetItemPrice_of_zero hz
      · exact resetItemPrice_of_ne hp hpz
  · unfold add_coupon_redemption
    split
    · show (oc.items.map resetItemPrice).map OrderItem.unit_cost = _
      rw [resetItems_id h]
    · rcases hA : couponApplyItems coupon oc.id oc.user creds oc.items with
        ⟨applied, items2, reds2⟩
      have := couponApply_reset_units coupon oc.id oc.user creds oc.items h
      rw [hA] at this
      simpa [reset_cart_items_prices, hA] using this
  · unfold add_reg_code_redemption
    rcases hA : regRedeemItems code oc.id oc.user rreds oc.items with ⟨r, items2, reds2⟩
    have := regRedeem_reset_units code oc.id oc.user rreds oc.items h
    rw [hA] at this
    cases r with
    | ok u => simpa [reset_cart_items_prices] using this
    | error e => simpa [reset_cart_items_prices] using this

/-- Witness for `reset_prices_spec`: a 20% coupon applied to the $100
cart and then reset leaves the unit cost at $100. -/
theorem reset_prices_spec_witness :
    (reset_cart_items_prices
      { orderCost100 with
        items := (add_coupon_redemption couponFix orderCost100
          orderCost100.items []).2.1 }).items.map OrderItem.unit_cost
      = [(100 : ℚ)] := by
  have h := (reset_prices_spec orderCost100 orderCost100 couponFix codeFix [] []
    (by intro i hi
        simp only [orderCost100, new_cart_for_user, itemCost100, itemPaid3,
          List.mem_singleton] at hi
        rw [hi])).2.1
  rw [h]
  simp [orderCost100, itemCost100, itemPaid3, new_cart_for_user]


/-- Shape of a successful `CourseRegCodeItem.add_to_order`. -/
lemma courseRegCodeItem_add_ok {env : Env} {o : Order} {c q : ℕ} {o' : Order}
    (h : courseRegCodeItem_add_to_order env o c q = Except.ok o') :
    o' = { o with
      currency := env.mode_currency c,
      next_item_id := o.next_item_id + 1,
      items := o.items ++
        [{ id := o.next_item_id, kind := ItemKind.courseRegCodeItem,
           course_id := some c, status := o.status, qty := q,
           unit_cost := env.mode_min_price c, list_price := none,
           currency := env.mode_currency c, mode := env.mode_slug c,
           fulfilled_time := none, refund_requested_time := none }] } := by
  unfold courseRegCodeItem_add_to_order at h
  split_ifs at h
  all_goals
    first
    | exact Except.noConfusion h
    | (injection h with h2; exact h2.symm)

/-- Shape of a successful `PaidCourseRegistration.add_to_order`. -/
lemma paidCourseRegistration_add_ok {env : Env} {o : Order} {c : ℕ} {o' : Order}
    (h : paidCourseRegistration_add_to_order env o c = Except.ok o') :
    o' = { o with
      currency := env.mode_currency c,
      next_item_id := o.next_item_id + 1,
      items := o.items ++
        [{ id := o.next_item_id, kind := ItemKind.paidCourseRegistration,
           course_id := some c, status := o.status, qty := 1,
           unit_cost := env.mode_min_price c, list_price := none,
           currency := env.mode_currency c, mode := env.mode_slug c,
           fulfilled_time := none, refund_requested_time := none }] } := by
  unfold paidCourseRegistration_add_to_order at h
  split_ifs at h
  all_goals
    first
    | exact Except.noConfusion h
    | (injection h with h2; exact h2.symm)

/-- The business migration pass preserves the order's identity fields. -/
lemma migrateBusiness_base (env : Env) :
    ∀ (l : List OrderItem) (o : Order) (dels : List ℕ),
      (migrateBusiness env l o dels).1.status = o.status
      ∧ (migrateBusiness env l o dels).1.order_type = o.order_type
      ∧ (migrateBusiness env l o dels).1.user = o.user
      ∧ (migrateBusiness env l o dels).1.id = o.id := by
  intro l
  induction l with
  | nil => intro o dels; exact ⟨rfl, rfl, rfl, rfl⟩
  | cons i rest ih =>
    intro o dels
    by_cases hk : i.kind = ItemKind.paidCourseRegistration
    · cases hadd : courseRegCodeItem_add_to_order env o (i.course_id.getD 0) i.qty with
      | ok o1 =>
        have hsh := courseRegCodeItem_add_ok hadd
        have ho1 : o1.status = o.status ∧ o1.order_type = o.order_type
            ∧ o1.user = o.user ∧ o1.id = o.id := by
          subst hsh; exact ⟨rfl, rfl, rfl, rfl⟩
        have hrec := ih o1 (dels ++ [i.id])
        simp only [migrateBusiness]
        rw [if_pos hk]
        simp only [hadd]
        exact ⟨hrec.1.trans ho1.1, hrec.2.1.trans ho1.2.1,
          hrec.2.2.1.trans ho1.2.2.1, hrec.2.2.2.trans ho1.2.2.2⟩
      | error e =>
        simp only [migrateBusiness]
        rw [if_pos hk]
        simp [hadd]
    · simp only [migrateBusiness]
      rw [if_neg hk]
      exact ih o dels

/-- The personal migration pass preserves the order's identity fields. -/
lemma migratePersonal_base (env : Env) :
    ∀ (l : List OrderItem) (o : Order) (dels : List ℕ),
      (migratePersonal env l o dels).1.status = o.status
      ∧ (migratePersonal env l o dels).1.order_type = o.order_type
      ∧ (migratePersonal env l o dels).1.user = o.user
      ∧ (migratePersonal env l o dels).1.id = o.id := by
  intro l
  induction l with
  | nil => intro o dels; exact ⟨rfl, rfl, rfl, rfl⟩
  | cons i rest ih =>
    intro o dels
    by_cases hk : i.kind = ItemKind.courseRegCodeItem
    · cases hadd : paidCourseRegistration_add_to_order env o (i.course_id.getD 0) with
      | ok o1 =>
        have hsh := paidCourseRegistration_add_ok hadd
        have ho1 : o1.status = o.status ∧ o1.order_type = o.order_type
            ∧ o1.user = o.user ∧ o1.id = o.id := by
          subst hsh; exact ⟨rfl, rfl, rfl, rfl⟩
        have hrec := ih o1 (dels ++ [i.id])
        simp only [migratePersonal]
        rw [if_pos hk]
        simp only [hadd]
        exact ⟨hrec.1.trans ho1.1, hrec.2.1.trans ho1.2.1,
          hrec.2.2.1.trans ho1.2.2.1, hrec.2.2.2.trans ho1.2.2.2⟩
      | error e =>
        simp only [migratePersonal]
        rw [if_pos hk]
        simp [hadd]
    · simp only [migratePersonal]
      rw [if_neg hk]
      exact ih o dels

/-- `update_order_type` preserves status, user and id. -/
lemma update_order_type_base (env : Env) (o : Order) :
    (update_order_type env o).1.status = o.status
    ∧ (update_order_type env o).1.user = o.user
    ∧ (update_order_type env o).1.id = o.id := by
  have hmr : (migrationResult env o).1.status = o.status
      ∧ (migrationResult env o).1.user = o.user
      ∧ (migrationResult env o).1.id = o.id := by
    unfold migrationResult
    split
    · have := migrateBusiness_base env o.items o []
      exact ⟨this.1, this.2.2.1, this.2.2.2⟩
    · have := migratePersonal_base env o.items o []
      exact ⟨this.1, this.2.2.1, this.2.2.2⟩
  unfold update_order_type
  rcases hm : migrationResult env o with ⟨o1, dels, err⟩
  rw [hm] at hmr
  cases err with
  | none => exact hmr
  | some e => exact hmr

/-- `purchaseBillingSave` marks the order purchased without touching
items, order type, user or id. -/
lemma purchaseBillingSave_fields (env : Env) (t : ℕ) (a : PurchaseArgs) (o : Order) :
    (purchaseBillingSave env t a o).status = OStatus.purchased
    ∧ (purchaseBillingSave env t a o).items = o.items
    ∧ (purchaseBillingSave env t a o).order_type = o.order_type
    ∧ (purchaseBillingSave env t a o).user = o.user
    ∧ (purchaseBillingSave env t a o).id = o.id := by
  unfold purchaseBillingSave
  split
  · exact ⟨rfl, rfl, rfl, rfl, rfl⟩
  · exact ⟨rfl, rfl, rfl, rfl, rfl⟩

/-- `purchaseStep` preserves status, user and id. -/
lemma purchaseStep_base (env : Env) (o2 : Order) :
    (purchaseStep env o2).1.status = o2.status
    ∧ (purchaseStep env o2).1.user = o2.user
    ∧ (purchaseStep env o2).1.id = o2.id := by
  unfold purchaseStep
  split
  · exact update_order_type_base env o2
  · exact ⟨rfl, rfl, rfl⟩

/-- A call to `Order.purchase` always leaves the order `'purchased'` —
already-purchased orders by the early return, all others by the saved
status assignment, whether or not fulfillment raised. -/
lemma purchase_status (env : Env) (t : ℕ) (a : PurchaseArgs) (o : Order) :
    (purchase env t a o).1.status = OStatus.purchased := by
  by_cases h : o.status = OStatus.purchased
  · simp [purchase, h]
  · have h2 := purchaseBillingSave_fields env t a o
    have h3 := purchaseStep_base env (purchaseBillingSave env t a o)
    rcases hs : purchaseStep env (purchaseBillingSave env t a o) with ⟨o3, err⟩
    rw [hs] at h3
    have ho3 : o3.status = OStatus.purchased := by rw [h3.1, h2.1]
    cases err with
    | some e => simp [purchase, h, hs, ho3]
    | none =>
      rcases hl : purchaseItemsLoop env o3.user t o3.items with ⟨items2, evs, err2⟩
      cases err2 with
      | some e => simp [purchase, h, hs, hl, ho3]
      | none => simp [purchase, h, hs, hl, ho3]

/-- C1: calling `Order.purchase` a second time is a no-op — the first
call always leaves the order in `'purchased'` status, and a call on a
purchased order returns it unchanged, performing no fulfillment side
effects and raising nothing, so fulfillment happens exactly once. -/
theorem purchase_second_call_noop (env : Env) (t t' : ℕ) (a a' : PurchaseArgs)
    (o : Order) :
    (purchase env t a o).1.status = OStatus.purchased
    ∧ purchase env t' a' (purchase env t a o).1 = ((purchase env t a o).1, [], none) := by
  have h := purchase_status env t a o
  refine ⟨h, ?_⟩
  generalize hq : (purchase env t a o).1 = s at h ⊢
  simp [purchase, h]


/-- Invariant of the successful business migration pass: the order's
item list is extended by fresh bundle items (ids at or above the old
`next_item_id`), the deletion list grows only by ids of walked items,
and every walked single-seat item is marked for deletion and has a
bundle replacement carrying its course and quantity. -/
lemma migrateBusiness_spec (env : Env) :
    ∀ (l : List OrderItem) (o : Order) (dels : List ℕ),
      (migrateBusiness env l o dels).2.2 = none →
      ∃ ext : List OrderItem,
        (migrateBusiness env l o dels).1.items = o.items ++ ext
        ∧ (∀ e ∈ ext, e.kind = ItemKind.courseRegCodeItem ∧ o.next_item_id ≤ e.id)
        ∧ (∀ d ∈ (migrateBusiness env l o dels).2.1, d ∈ dels ∨ ∃ i ∈ l, d = i.id)
        ∧ (∀ d ∈ dels, d ∈ (migrateBusiness env l o dels).2.1)
        ∧ (∀ i ∈ l, i.kind = ItemKind.paidCourseRegistration →
            i.id ∈ (migrateBusiness env l o dels).2.1
            ∧ ∃ e ∈ ext, e.course_id = some (i.course_id.getD 0) ∧ e.qty = i.qty) := by
  intro l
  induction l with
  | nil =>
    intro o dels _
    refine ⟨[], by simp [migrateBusiness], by simp, ?_, ?_, by simp⟩
    · intro d hd
      exact Or.inl hd
    · intro d hd
      exact hd
  | cons i rest ih =>
    intro o dels hnone
    by_cases hk : i.kind = ItemKind.paidCourseRegistration
    · cases hadd : courseRegCodeItem_add_to_order env o (i.course_id.getD 0) i.qty with
      | error e =>
        exfalso
        simp only [migrateBusiness] at hnone
        rw [if_pos hk] at hnone
        simp [hadd] at hnone
      | ok o1 =>
        have hsh := courseRegCodeItem_add_ok hadd
        have hnone2 : (migrateBusiness env rest o1 (dels ++ [i.id])).2.2 = none := by
          simp only [migrateBusiness] at hnone
          rw [if_pos hk] at hnone
          simpa [hadd] using hnone
        obtain ⟨ext1, hitems, hext, hdsrc, hdmono, hpaid⟩ := ih o1 (dels ++ [i.id]) hnone2
        have hred : migrateBusiness env (i :: rest) o dels =
            migrateBusiness env rest o1 (dels ++ [i.id]) := by
          simp only [migrateBusiness]
          rw [if_pos hk]
          simp [hadd]
        rw [hred]
        have ho1items : o1.items = o.items ++
            [{ id := o.next_item_id, kind := ItemKind.courseRegCodeItem,
               course_id := some (i.course_id.getD 0), status := o.status, qty := i.qty,
               unit_cost := env.mode_min_price (i.course_id.getD 0), list_price := none,
               currency := env.mode_currency (i.course_id.getD 0),
               mode := env.mode_slug (i.course_id.getD 0), fulfilled_time := none,
               refund_requested_time := none }] := by
          rw [hsh]
        have ho1next : o1.next_item_id = o.next_item_id + 1 := by rw [hsh]
        obtain ⟨nI, hnI_items, hnI_kind, hnI_id, hnI_course, hnI_qty⟩ :
            ∃ nI : OrderItem, o1.items = o.items ++ [nI]
              ∧ nI.kind = ItemKind.courseRegCodeItem
              ∧ nI.id = o.next_item_id
              ∧ nI.course_id = some (i.course_id.getD 0)
              ∧ nI.qty = i.qty := ⟨_, ho1items, rfl, rfl, rfl, rfl⟩
        refine ⟨nI :: ext1, ?_, ?_, ?_, ?_, ?_⟩
        · rw [hitems, hnI_items]
          simp
        · intro e he
          rcases List.mem_cons.mp he with he1 | he2
          · subst he1
            exact ⟨hnI_kind, le_of_eq hnI_id.symm⟩
          · have h2 := hext e he2
            have h3 := h2.2
            rw [ho1next] at h3
            exact ⟨h2.1, by omega⟩
        · intro d hd
          rcases hdsrc d hd with hd1 | hd2
          · rcases List.mem_append.mp hd1 with hdl | hdr
            · exact Or.inl hdl
            · right
              refine ⟨i, List.mem_cons_self i rest, ?_⟩
              simpa using hdr
          · rcases hd2 with ⟨j, hj, hdj⟩
            exact Or.inr ⟨j, List.mem_cons_of_mem i hj, hdj⟩
        · intro d hd
          exact hdmono d (List.mem_append.mpr (Or.inl hd))
        · intro j hj hjk
          rcases List.mem_cons.mp hj with hj1 | hj2
          · subst hj1
            refine ⟨hdmono j.id (List.mem_append.mpr (Or.inr (by simp))), ?_⟩
            exact ⟨nI, List.mem_cons_self _ _, hnI_course, hnI_qty⟩
          · have := hpaid j hj2 hjk
            exact ⟨this.1, this.2.imp fun e he => ⟨List.mem_cons_of_mem _ he.1, he.2⟩⟩
    · have hred : migrateBusiness env (i :: rest) o dels =
          migrateBusiness env rest o dels := by
        simp only [migrateBusiness]
        rw [if_neg hk]
      rw [hred] at hnone ⊢
      obtain ⟨ext1, hitems, hext, hdsrc, hdmono, hpaid⟩ := ih o dels hnone
      refine ⟨ext1, hitems, hext, ?_, hdmono, ?_⟩
      · intro d hd
        rcases hdsrc d hd with hd1 | hd2
        · exact Or.inl hd1
        · rcases hd2 with ⟨j, hj, hdj⟩
          exact Or.inr ⟨j, List.mem_cons_of_mem i hj, hdj⟩
      · intro j hj hjk
        rcases List.mem_cons.mp hj with hj1 | hj2
        · subst hj1
          exact absurd hjk hk
        · exact hpaid j hj2 hjk


/-- On a successful run over an order with some quantity above one,
`update_order_type` marks the order business, leaves no single-seat
items, and gives every single-seat item a bundle replacement with the
same course and quantity. -/
lemma update_order_type_business_spec (env : Env) (o : Order)
    (hWF : ∀ i ∈ o.items, i.id < o.next_item_id)
    (hq : ∃ i ∈ o.items, 1 < i.qty)
    (hnone : (update_order_type env o).2 = none) :
    (update_order_type env o).1.order_type = OType.business
    ∧ (∀ i' ∈ (update_order_type env o).1.items,
        i'.kind ≠ ItemKind.paidCourseRegistration)
    ∧ (∀ i ∈ o.items, i.kind = ItemKind.paidCourseRegistration →
        ∃ i' ∈ (update_order_type env o).1.items,
          i'.kind = ItemKind.courseRegCodeItem
          ∧ i'.course_id = some (i.course_id.getD 0) ∧ i'.qty = i.qty) := by
  have hib : isOrderTypeBusiness o = true := by
    rcases hq with ⟨i, hi, hqi⟩
    exact List.any_eq_true.mpr ⟨i, hi, by simpa using hqi⟩
  have hm : migrationResult env o = migrateBusiness env o.items o [] := by
    unfold migrationResult
    rw [if_pos hib]
  rcases hmb : migrateBusiness env o.items o [] with ⟨o1, dels, err⟩
  have hm2 : migrationResult env o = (o1, dels, err) := hm.trans hmb
  cases err with
  | some e =>
    exfalso
    unfold update_order_type at hnone
    rw [hm2] at hnone
    simp at hnone
  | none =>
    have hspec := migrateBusiness_spec env o.items o [] (by rw [hmb])
    rw [hmb] at hspec
    obtain ⟨ext, hitems, hext, hdsrc, _, hpaid⟩ := hspec
    have hupd : update_order_type env o =
        ({ o1 with
           items := o1.items.filter (fun i => decide (i.id ∉ dels)),
           order_type := if isOrderTypeBusiness o then OType.business
                         else OType.personal }, none) := by
      unfold update_order_type
      rw [hm2]
    have hdel_lt : ∀ d ∈ dels, d < o.next_item_id := by
      intro d hd
      rcases hdsrc d hd with hd1 | hd2
      · exact absurd hd1 (List.not_mem_nil d)
      · rcases hd2 with ⟨j, hj, rfl⟩
        exact hWF j hj
    refine ⟨?_, ?_, ?_⟩
    · rw [hupd]
      simp [hib]
    · intro i' hi'
      rw [hupd] at hi'
      simp only [List.mem_filter, decide_eq_true_eq] at hi'
      rcases hi' with ⟨hmem, hnd⟩
      rw [hitems] at hmem
      rcases List.mem_append.mp hmem with horig | hnew
      · intro hkind
        exact hnd ((hpaid i' horig hkind).1)
      · rw [(hext i' hnew).1]
        intro hcontra
        exact ItemKind.noConfusion hcontra
    · intro i hi hkind
      obtain ⟨_, e, he_mem, he_course, he_qty⟩ := hpaid i hi hkind
      refine ⟨e, ?_, (hext e he_mem).1, he_course, he_qty⟩
      rw [hupd]
      simp only [List.mem_filter, decide_eq_true_eq]
      refine ⟨by rw [hitems]; exact List.mem_append.mpr (Or.inr he_mem), ?_⟩
      intro hin
      have h1 := hdel_lt e.id hin
      have h2 := (hext e he_mem).2
      omega

/-- On a successful run over an order whose quantities are all one,
`update_order_type` marks the order personal. -/
lemma update_order_type_personal_spec (env : Env) (o : Order)
    (hq : ∀ i ∈ o.items, i.qty ≤ 1)
    (hnone : (update_order_type env o).2 = none) :
    (update_order_type env o).1.order_type = OType.personal := by
  have hib : isOrderTypeBusiness o = false := by
    unfold isOrderTypeBusiness
    rw [List.any_eq_false]
    intro i hi
    have := hq i hi
    simp
    omega
  have hm : migrationResult env o = migratePersonal env o.items o [] := by
    unfold migrationResult
    rw [hib]
    simp
  rcases hmb : migratePersonal env o.items o [] with ⟨o1, dels, err⟩
  have hm2 : migrationResult env o = (o1, dels, err) := hm.trans hmb
  cases err with
  | some e =>
    exfalso
    unfold update_order_type at hnone
    rw [hm2] at hnone
    simp at hnone
  | none =>
    unfold update_order_type
    rw [hm2]
    simp [hib]

/-- `purchase_item` only stamps status and fulfillment time. -/
lemma purchase_item_ok {env : Env} {u t : ℕ} {i i' : OrderItem} {evs : List Event}
    (h : purchase_item env u t i = Except.ok (i', evs)) :
    i' = { i with status := OStatus.purchased, fulfilled_time := some t } := by
  unfold purchase_item at h
  cases hcb : purchased_callback env u i with
  | error e =>
    rw [hcb] at h
    exact Except.noConfusion h
  | ok l =>
    rw [hcb] at h
    injection h with h2
    have := congrArg Prod.fst h2
    exact this.symm

/-- The purchase loop does not change any item's kind (even on partial
failure). -/
lemma purchaseItemsLoop_kinds (env : Env) (u t : ℕ) :
    ∀ l : List OrderItem,
      ((purchaseItemsLoop env u t l).1.map fun i => i.kind) = l.map fun i => i.kind := by
  intro l
  induction l with
  | nil => rfl
  | cons i rest ih =>
    cases hp : purchase_item env u t i with
    | error e => simp [purchaseItemsLoop, hp]
    | ok pr =>
      rcases pr with ⟨i', evs⟩
      rcases hl : purchaseItemsLoop env u t rest with ⟨rest2, evs2, err2⟩
      rw [hl] at ih
      have hk : i'.kind = i.kind := by rw [purchase_item_ok hp]
      simp only [purchaseItemsLoop, hp, hl, List.map_cons, hk]
      rw [ih]

/-- On a fully successful purchase loop every resulting item is
`'purchased'`. -/
lemma purchaseItemsLoop_purchased (env : Env) (u t : ℕ) :
    ∀ l : List OrderItem,
      (purchaseItemsLoop env u t l).2.2 = none →
      ∀ i' ∈ (purchaseItemsLoop env u t l).1, i'.status = OStatus.purchased := by
  intro l
  induction l with
  | nil => intro _ i' hi'; exact absurd hi' (List.not_mem_nil i')
  | cons i rest ih =>
    intro hnone i' hi'
    cases hp : purchase_item env u t i with
    | error e =>
      rw [show purchaseItemsLoop env u t (i :: rest) = (i :: rest, [], some e) by
        simp [purchaseItemsLoop, hp]] at hnone
      exact Option.noConfusion hnone
    | ok pr =>
      rcases pr with ⟨i2, evs⟩
      rcases hl : purchaseItemsLoop env u t rest with ⟨rest2, evs2, err2⟩
      have hred : purchaseItemsLoop env u t (i :: rest) =
          (i2 :: rest2, evs ++ evs2, err2) := by
        simp [purchaseItemsLoop, hp, hl]
      rw [hred] at hnone hi'
      rcases List.mem_cons.mp hi' with h1 | h2
      · subst h1
        rw [purchase_item_ok hp]
      · have := ih (by rw [hl]; exact hnone)
        rw [hl] at this
        exact this i' h2

/-- `Order.purchase` never reclassifies a personal order and keeps every
item's kind. -/
lemma purchase_personal (env : Env) (t : ℕ) (a : PurchaseArgs) (o : Order)
    (hp : o.order_type = OType.personal) :
    (purchase env t a o).1.order_type = OType.personal
    ∧ ((purchase env t a o).1.items.map fun i => i.kind) =
        o.items.map fun i => i.kind := by
  by_cases h : o.status = OStatus.purchased
  · simp [purchase, h, hp]
  · have hb := purchaseBillingSave_fields env t a o
    have hstep : purchaseStep env (purchaseBillingSave env t a o) =
        (purchaseBillingSave env t a o, none) := by
      unfold purchaseStep
      rw [if_neg]
      rw [hb.2.2.1, hp]
      intro hcontra
      exact OType.noConfusion hcontra
    rcases hl : purchaseItemsLoop env (purchaseBillingSave env t a o).user t
        (purchaseBillingSave env t a o).items with ⟨items2, evs2, err2⟩
    have hkinds := purchaseItemsLoop_kinds env (purchaseBillingSave env t a o).user t
      (purchaseBillingSave env t a o).items
    rw [hl] at hkinds
    cases err2 with
    | some e =>
      have hred : purchase env t a o =
          ({ purchaseBillingSave env t a o with items := items2 }, evs2, some e) := by
        simp only [purchase, if_neg h, hstep, hl]
      rw [hred]
      constructor
      · show (purchaseBillingSave env t a o).order_type = OType.personal
        rw [hb.2.2.1, hp]
      · show items2.map (fun i => i.kind) = _
        rw [hkinds, hb.2.1]
    | none =>
      have hred : purchase env t a o =
          ({ purchaseBillingSave env t a o with items := items2 },
            evs2 ++ [Event.confirmationEmail (purchaseBillingSave env t a o).id],
            none) := by
        simp only [purchase, if_neg h, hstep, hl]
      rw [hred]
      constructor
      · show (purchaseBillingSave env t a o).order_type = OType.personal
        rw [hb.2.2.1, hp]
      · show items2.map (fun i => i.kind) = _
        rw [hkinds, hb.2.1]

/-- C5 counterexample: a `'personal'` order holding a quantity-3
single-seat item is purchased without error, yet stays `'personal'` and
keeps its single-seat item — `purchase` runs the reclassification pass
only when the order is already `'business'`. -/
theorem purchase_personal_qty_cex :
    (∃ i ∈ orderQty3.items, 1 < i.qty)
    ∧ (purchase envFix 0 argsFix orderQty3).2.2 = none
    ∧ (purchase envFix 0 argsFix orderQty3).1.order_type = OType.personal
    ∧ ((purchase envFix 0 argsFix orderQty3).1.items.map fun i => i.kind) =
        [ItemKind.paidCourseRegistration] := by
  refine ⟨⟨itemPaid3, by simp [orderQty3, new_cart_for_user], by
    simp [itemPaid3]⟩, ?_, ?_, ?_⟩ <;> decide

/-- C5 amended: `Order.purchase` runs `update_order_type` only when the
order's `order_type` is already `'business'` — a `'personal'` order is
purchased unchanged in type and item kinds regardless of quantities.
When `update_order_type` itself runs successfully: with some quantity
above 1 the order becomes `'business'`, every single-seat item is
deleted and replaced by a bundle item carrying the same course and
quantity; with all quantities at most 1 it becomes `'personal'`. -/
theorem reclassification_spec (env : Env) (t : ℕ) (a : PurchaseArgs) (o : Order)
    (hWF : ∀ i ∈ o.items, i.id < o.next_item_id)
    (hPC : ∀ i ∈ o.items, i.kind = ItemKind.paidCourseRegistration →
      i.course_id ≠ none) :
    (o.order_type = OType.personal →
      (purchase env t a o).1.order_type = OType.personal
      ∧ ((purchase env t a o).1.items.map fun i => i.kind) =
          o.items.map fun i => i.kind)
    ∧ ((update_order_type env o).2 = none → (∃ i ∈ o.items, 1 < i.qty) →
      (update_order_type env o).1.order_type = OType.business
      ∧ (∀ i' ∈ (update_order_type env o).1.items,
          i'.kind ≠ ItemKind.paidCourseRegistration)
      ∧ (∀ i ∈ o.items, i.kind = ItemKind.paidCourseRegistration →
          ∃ i' ∈ (update_order_type env o).1.items,
            i'.kind = ItemKind.courseRegCodeItem
            ∧ i'.course_id = i.course_id ∧ i'.qty = i.qty))
    ∧ ((update_order_type env o).2 = none → (∀ i ∈ o.items, i.qty ≤ 1) →
      (update_order_type env o).1.order_type = OType.personal) := by
  refine ⟨fun hp => purchase_personal env t a o hp, fun hnone hq => ?_,
    fun hnone hq => update_order_type_personal_spec env o hq hnone⟩
  obtain ⟨h1, h2, h3⟩ := update_order_type_business_spec env o hWF hq hnone
  refine ⟨h1, h2, ?_⟩
  intro i hi hkind
  obtain ⟨i', hmem, hk, hcourse, hqty⟩ := h3 i hi hkind
  refine ⟨i', hmem, hk, ?_, hqty⟩
  rcases hc : i.course_id with _ | c
  · exact absurd hc (hPC i hi hkind)
  · rw [hcourse, hc]
    rfl

/-- Witness for `reclassification_spec`: the quantity-3 cart is
reclassified to business by `update_order_type`. -/
theorem reclassification_spec_witness :
    (update_order_type envFix orderQty3).1.order_type = OType.business :=
  ((reclassification_spec envFix 0 argsFix orderQty3
    (by decide) (by decide)).2.1 (by decide)
    ⟨itemPaid3, by simp [orderQty3, new_cart_for_user], by simp [itemPaid3]⟩).1


/-- C6 counterexample: on a purchased order holding a verified
certificate item and a second purchased item, the status-mirroring
invariant holds before the refund but is broken by
`refund_cert_callback`: the order and the certificate item move to
`'refunded'` while the sibling item stays `'purchased'`. -/
theorem status_mirror_refund_cex :
    status_mirrored orderPurchasedTwo = true
    ∧ status_mirrored (refund_cert_callback true 1 99 orderPurchasedTwo).1 = false := by
  constructor <;> decide

/-- Any member of `replaceFirst p f l` is an element of `l` or the image
under `f` of one. -/
lemma mem_replaceFirst {p : OrderItem → Bool} {f : OrderItem → OrderItem}
    {x : OrderItem} :
    ∀ {l : List OrderItem}, x ∈ replaceFirst p f l → x ∈ l ∨ ∃ y ∈ l, x = f y := by
  intro l
  induction l with
  | nil => intro h; exact absurd h (List.not_mem_nil x)
  | cons i rest ih =>
    intro hx
    unfold replaceFirst at hx
    by_cases hp : p i
    · rw [if_pos hp] at hx
      rcases List.mem_cons.mp hx with h1 | h2
      · exact Or.inr ⟨i, List.mem_cons_self i rest, h1⟩
      · exact Or.inl (List.mem_cons_of_mem i h2)
    · rw [if_neg hp] at hx
      rcases List.mem_cons.mp hx with h1 | h2
      · exact Or.inl (by rw [h1]; exact List.mem_cons_self i rest)
      · rcases ih h2 with h3 | ⟨y, hy, hxy⟩
        · exact Or.inl (List.mem_cons_of_mem i h3)
        · exact Or.inr ⟨y, List.mem_cons_of_mem i hy, hxy⟩

/-- C6 amended: the status-mirroring invariant `item.status ==
order.status` holds after cart creation, after `start_purchase` from a
cart, after a successful `add_to_order` of each modelled item variant
(single-seat registration, bundle, certificate — including its
update-in-place path — and donation), and after a successful
`purchase`; but `refund_cert_callback` restores it only when the
refunded certificate is the order's sole item — in general the refund
sets the order and the matched certificate item to `'refunded'` and
leaves sibling items' statuses untouched. -/
theorem status_mirror_spec (env : Env) (t rt course oid u c q mode cur : ℕ)
    (cost amt : ℚ) (dcourse : Option ℕ)
    (a : PurchaseArgs) (o o' : Order) (i : OrderItem) :
    status_mirrored (new_cart_for_user oid u) = true
    ∧ (o.status = OStatus.cart → status_mirrored (start_purchase o) = true)
    ∧ (courseRegCodeItem_add_to_order env o c q = Except.ok o' →
        status_mirrored o = true → status_mirrored o' = true)
    ∧ (paidCourseRegistration_add_to_order env o c = Except.ok o' →
        status_mirrored o = true → status_mirrored o' = true)
    ∧ (certificateItem_add_to_order env o c cost mode cur = Except.ok o' →
        status_mirrored o = true → status_mirrored o' = true)
    ∧ (donation_add_to_order env o amt dcourse cur = Except.ok o' →
        status_mirrored o = true → status_mirrored o' = true)
    ∧ (o.status ≠ OStatus.purchased → (purchase env t a o).2.2 = none →
        status_mirrored (purchase env t a o).1 = true)
    ∧ (o.items = [i] → refundTarget course i = true →
        status_mirrored (refund_cert_callback true course rt o).1 = true) := by
  refine ⟨rfl, ?_, ?_, ?_, ?_, ?_, ?_, ?_⟩
  · intro h
    unfold start_purchase
    rw [if_pos h]
    unfold status_mirrored
    simp [orderItemStartPurchase]
  · intro h hm
    rw [courseRegCodeItem_add_ok h]
    unfold status_mirrored at hm ⊢
    simp [List.all_append, hm]
  · intro h hm
    rw [paidCourseRegistration_add_ok h]
    unfold status_mirrored at hm ⊢
    simp [List.all_append, hm]
  · intro h hm
    unfold certificateItem_add_to_order at h
    split_ifs at h with h1 h2 h3
    all_goals
      first
      | exact Except.noConfusion h
      | (injection h with h4
         rw [← h4]
         unfold status_mirrored at hm ⊢
         first
         | (simp [List.all_append, hm]; done)
         | (rw [List.all_eq_true] at hm ⊢
            intro x hx
            rcases mem_replaceFirst hx with hxl | ⟨y, hy, rfl⟩
            · simpa using hm x hxl
            · simp))
  · intro h hm
    cases dcourse with
    | some c2 =>
      simp only [donation_add_to_order] at h
      split_ifs at h with h1 h2
      all_goals
        first
        | exact Except.noConfusion h
        | (injection h with h4
           rw [← h4]
           unfold status_mirrored at hm ⊢
           simp [List.all_append, hm])
    | none =>
      simp only [donation_add_to_order] at h
      split_ifs at h with h1
      all_goals
        first
        | exact Except.noConfusion h
        | (injection h with h4
           rw [← h4]
           unfold status_mirrored at hm ⊢
           simp [List.all_append, hm])
  · intro hnp hnone
    have hb := purchaseBillingSave_fields env t a o
    have hsb := purchaseStep_base env (purchaseBillingSave env t a o)
    rcases hs : purchaseStep env (purchaseBillingSave env t a o) with ⟨o3, err⟩
    rw [hs] at hsb
    have ho3 : o3.status = OStatus.purchased := by rw [hsb.1, hb.1]
    cases err with
    | some e =>
      exfalso
      have hx : (purchase env t a o).2.2 = some e := by
        simp only [purchase, if_neg hnp, hs]
      rw [hx] at hnone
      exact Option.noConfusion hnone
    | none =>
      rcases hl : purchaseItemsLoop env o3.user t o3.items with ⟨items2, evs2, err2⟩
      cases err2 with
      | some e =>
        exfalso
        have hx : (purchase env t a o).2.2 = some e := by
          simp only [purchase, if_neg hnp, hs, hl]
        rw [hx] at hnone
        exact Option.noConfusion hnone
      | none =>
        have hpur := purchaseItemsLoop_purchased env o3.user t o3.items
          (by rw [hl])
        rw [hl] at hpur
        have hred : (purchase env t a o).1 = { o3 with items := items2 } := by
          simp only [purchase, if_neg hnp, hs, hl]
        rw [hred]
        unfold status_mirrored
        rw [List.all_eq_true]
        intro x hx
        have hxp := hpur x hx
        simp [hxp, ho3]
  · intro hitems hpred
    have hred : (refund_cert_callback true course rt o).1 =
        { o with
          status := OStatus.refunded,
          items := [{ i with
                        status := OStatus.refunded,
                        refund_requested_time := some rt }] } := by
      unfold refund_cert_callback
      rw [hitems]
      simp [replaceFirst, hpred]
    rw [hred]
    unfold status_mirrored
    simp

/-- Witness for `status_mirror_spec`: starting the purchase of the cart
fixture leaves every item mirroring the order's `'paying'` status. -/
theorem status_mirror_spec_witness :
    status_mirrored (start_purchase orderQty3) = true :=
  (status_mirror_spec envFix 0 0 1 0 0 0 0 0 0 0 0 none argsFix orderQty3 orderQty3
    itemPaid3).2.1 rfl

end Shoppingcart
